import Mathlib

/-!
# Verification of the onchain-analytics ingestion pipeline

Shallow embedding of `src/app.py` (the fetch → normalize → store → notify →
snapshot pipeline) and proofs about the spec's claims.

Modelling conventions, used throughout:

* Python `float` arithmetic is modelled by exact rational arithmetic (`ℚ`).
  Every concrete value a claim probes is exactly representable as a binary64
  float, so the idealization does not change any claim's verdict.
* Python exceptions are modelled explicitly: a function that can raise returns
  an `Except PyErr _` (or a result carrying an `Option PyErr`), and a `try`
  block in the source becomes a `match` on that value.  Stateful side effects
  committed before a raise (SQLite commits, the global price-cache write) are
  preserved: the process functions return the post-raise store/cache state
  together with the error.
* Dynamic JSON values are modelled by their shape after the lookups the source
  performs: a missing key becomes `Option.none`, a `.get(k, default)` becomes
  `Option.getD`.  The raw `value` field of a Base transfer is represented by
  the string `str(value)` would produce (so a JSON `null` is the unparsable
  string "None"); `float(...)` applied to it is modelled by the decimal
  parser `pyFloat` below.
* HTTP calls are modelled by an outcome parameter: `.exn` for a raised
  `requests` exception, `.resp status body` otherwise, with `body = none`
  meaning that `.json()` raises.
-/

/- `Rat.add` and friends are `@[irreducible]` upstream, which blocks `decide`
and `rfl` from evaluating the embedding on concrete inputs; restore ordinary
reducibility for this development. -/
attribute [local semireducible] Rat.add Rat.mul Rat.inv Rat.sub Rat.ofScientific

/-! ## Python-level numeric string parsing -/

/-- Numeric value of a list of decimal digit characters, most significant
first (helper for the decimal parser). -/
def digitsToNat (ds : List Char) : Nat :=
  ds.foldl (fun acc c => acc * 10 + (c.toNat - '0'.toNat)) 0

/-- Split off the leading run of decimal digits. -/
def takeDigits (cs : List Char) : List Char × List Char :=
  (cs.takeWhile Char.isDigit, cs.dropWhile Char.isDigit)

/-- Consume an optional leading sign; returns whether the number is negated. -/
def takeSign : List Char → Bool × List Char
  | '-' :: r => (true, r)
  | '+' :: r => (false, r)
  | cs => (false, cs)

/-- Read a decimal numeral (sign, integer digits, optional fraction, optional
exponent) from the front of a character list.  Returns the value and the
unconsumed suffix, or `none` when no mantissa digit is present.  An `e` that
is not followed by digits is left unconsumed, as in SQLite's prefix parse. -/
def readNumber (cs : List Char) : Option (ℚ × List Char) :=
  let (neg, cs1) := takeSign cs
  let (ip, cs2) := takeDigits cs1
  let (fp, cs3) :=
    match cs2 with
    | '.' :: r => takeDigits r
    | _ => ([], cs2)
  if ip = [] ∧ fp = [] then none
  else
    let mant : ℚ := (digitsToNat ip : ℚ) + (digitsToNat fp : ℚ) / (10 : ℚ) ^ fp.length
    let (v, rest) :=
      match cs3 with
      | 'e' :: r | 'E' :: r =>
        let (eneg, r1) := takeSign r
        let (eds, r2) := takeDigits r1
        if eds = [] then (mant, cs3)
        else if eneg then (mant / (10 : ℚ) ^ digitsToNat eds, r2)
        else (mant * (10 : ℚ) ^ digitsToNat eds, r2)
      | _ => (mant, cs3)
    some ((if neg then -v else v), rest)

/-- Python `float(s)` on a decimal string: the whole string (modulo
surrounding spaces) must be a numeral, otherwise `ValueError` (`none`).
Special forms not produced by this pipeline (`inf`, `nan`, underscores)
are not modelled. -/
def pyFloat (s : String) : Option ℚ :=
  match readNumber (s.data.dropWhile (· = ' ')) with
  | some (v, rest) => if rest.dropWhile (· = ' ') = [] then some v else none
  | none => none

/-- SQLite `CAST(s AS REAL)`: numeric value of the longest numeric prefix,
`0` when there is none. -/
def sqlCastReal (s : String) : ℚ :=
  match readNumber (s.data.dropWhile (· = ' ')) with
  | some (v, _) => v
  | none => 0

/-- Value of one hexadecimal digit character. -/
def hexDigitVal (c : Char) : Option Nat :=
  if '0' ≤ c ∧ c ≤ '9' then some (c.toNat - '0'.toNat)
  else if 'a' ≤ c ∧ c ≤ 'f' then some (c.toNat - 'a'.toNat + 10)
  else if 'A' ≤ c ∧ c ≤ 'F' then some (c.toNat - 'A'.toNat + 10)
  else none

/-- Accumulating hexadecimal parse; fails on the first non-hex character. -/
def hexNatGo : List Char → Nat → Option Nat
  | [], acc => some acc
  | c :: r, acc =>
    match hexDigitVal c with
    | some d => hexNatGo r (acc * 16 + d)
    | none => none

/-- Python `int(s, 16)`: optional `0x`/`0X` prefix then hex digits;
`ValueError` (`none`) otherwise.  Signs and surrounding whitespace, which
this pipeline never feeds it, are not modelled. -/
def pyIntHex (s : String) : Option Nat :=
  let cs :=
    match s.data with
    | '0' :: 'x' :: r => r
    | '0' :: 'X' :: r => r
    | r => r
  match cs with
  | [] => none
  | _ => hexNatGo cs 0

/-- Python `str()` of the float `|bc| / 1e9` (the Solana lamports → SOL
conversion): integer part, a dot, and the fractional digits with trailing
zeros trimmed (at least one digit), e.g. `str(0.0) = "0.0"`.  Python's
scientific notation for very small magnitudes is not modelled; no claim
inspects this string for a wallet-present Solana transaction. -/
def solValueStr (bc : Int) : String :=
  let n := bc.natAbs
  let ip := n / 1000000000
  let fp := n % 1000000000
  let fracFull := (List.replicate (9 - (Nat.repr fp).length) '0').asString ++ Nat.repr fp
  let trimmed := (fracFull.data.reverse.dropWhile (· = '0')).reverse
  Nat.repr ip ++ "." ++ (if trimmed = [] then "0" else trimmed.asString)

/-! ## Configuration constants (from the top of `app.py`) -/

/-- The fixed monitored Solana wallet address. -/
def SOLANA_WALLET : String := "FeB1jqjCFKyQ2vVTPLgYmZu1yLvBWhsGoudP46fhhF8z"

/-! ## Data model: stored rows and process-wide state -/

/-- One row of the `transactions` table.  The `usd_value` column stores
`str(<float>)` in the source; it is carried here as the exact rational the
string denotes.  `from_address`, `to_address`, `timestamp` and
`block_number` are nullable (`none` = a NULL column): the pipeline binds the
un-coerced Python value, which is `None` for a null upstream `from`/`to`
field and for a null Solana `blockTime`/`slot`. -/
structure TxRecord where
  hash : String
  network : String
  from_address : Option String
  to_address : Option String
  value : String
  timestamp : Option Int
  block_number : Option Int
  status : String
  gas_used : String
  token_symbol : String
  token_address : String
  usd_value : ℚ
deriving Repr, DecidableEq

/-- One row of the `activity_snapshots` table (`total_value` stores
`str(SUM(CAST(value AS REAL)))`, carried as the exact rational). -/
structure Snapshot where
  timestamp : Int
  network : String
  transaction_count : Nat
  total_value : ℚ
deriving Repr, DecidableEq

/-- The SQLite database: both tables, in insertion order. -/
structure Store where
  transactions : List TxRecord
  snapshots : List Snapshot
deriving Repr, DecidableEq

/-- The empty database, as created by `init_db`. -/
def store0 : Store := ⟨[], []⟩

/-- The module-level price cache: `price_cache` (a `none` cache is the falsy
empty dict) and `price_cache_time`. -/
structure PriceState where
  cache : Option (ℚ × ℚ)
  cacheTime : ℚ
deriving Repr, DecidableEq

/-- Initial price-cache state: `price_cache = {}`, `price_cache_time = 0`. -/
def pst0 : PriceState := ⟨none, 0⟩

/-- Modelled Python exception kinds. -/
inductive PyErr where
  | keyError
  | indexError
  | valueError
  | typeError
  | connError
  | jsonError
deriving Repr, DecidableEq

/-- Outcome of one HTTP request: a raised exception, or a response with a
status code and a body (`none` = `.json()` raises). -/
inductive HttpResult (β : Type) where
  | exn
  | resp (status : Nat) (body : Option β)
deriving Repr, DecidableEq

/-! ## Price Oracle (`get_token_prices`, `get_token_price_dexscreener`) -/

/-- Upstream outcome for the CoinGecko call.  A parsed body is the pair of the
already-defaulted lookups `data.get('ethereum',{}).get('usd',0)` and
`data.get('solana',{}).get('usd',0)`. -/
abbrev PriceFetch := HttpResult (ℚ × ℚ)

/-- `get_token_prices` from `app.py`: serve the cache when it is non-empty and
less than 300 seconds old; otherwise refetch, updating the cache only on a
200-status parse; on any failure fall back to the last cache or zeros.
Returns the price pair, the new cache state, and whether an upstream request
was issued. -/
def get_token_prices (pst : PriceState) (now : ℚ) (f : PriceFetch) :
    (ℚ × ℚ) × PriceState × Bool :=
  if now - pst.cacheTime < 300 ∧ pst.cache.isSome then
    (pst.cache.getD (0, 0), pst, false)
  else
    match f with
    | .exn => (pst.cache.getD (0, 0), pst, true)
    | .resp st body =>
      if st = 200 then
        match body with
        | none => (pst.cache.getD (0, 0), pst, true)
        | some p => (p, ⟨some p, now⟩, true)
      else (pst.cache.getD (0, 0), pst, true)

/-- One trading pair from the DexScreener response, with the source's
defaulted lookups (`chainId` via `.get('chainId','')`, liquidity via
`float(.get('liquidity',{}).get('usd',0))`, price via
`float(.get('priceUsd',0))`) already applied. -/
structure DexPair where
  chainId : String
  liquidityUsd : ℚ
  priceUsd : ℚ
deriving Repr, DecidableEq

/-- Upstream outcome for the DexScreener call; a parsed body is the
`pairs` list (`data.get('pairs', [])`). -/
abbrev DexFetch := HttpResult (List DexPair)

/-- ASCII lower-casing of one character (Python `str.lower()` on the ASCII
chain identifiers this API produces). -/
def lowerChar (c : Char) : Char :=
  if 'A' ≤ c ∧ c ≤ 'Z' then Char.ofNat (c.toNat + 32) else c

/-- Python `s.lower()` (ASCII). -/
def lowerString (s : String) : String := ⟨s.data.map lowerChar⟩

/-- Case-insensitive chain-identifier match
(`pair.get('chainId','').lower() == chain.lower()`). -/
def chainMatches (chain : String) (p : DexPair) : Bool :=
  lowerString p.chainId = lowerString chain

/-- The best-pair selection loop: keep the first chain-matching pair whose
liquidity strictly exceeds the current best's. -/
def bestLoop (chain : String) : List DexPair → Option DexPair → Option DexPair
  | [], best => best
  | p :: rest, best =>
    if chainMatches chain p then
      match best with
      | none => bestLoop chain rest (some p)
      | some b =>
        if p.liquidityUsd > b.liquidityUsd then bestLoop chain rest (some p)
        else bestLoop chain rest (some b)
    else bestLoop chain rest best

/-- `get_token_price_dexscreener` from `app.py`: price of the best
chain-matching pair, `0` on any failure or when no pair matches. -/
def get_token_price_dexscreener (tokenAddress chain : String) (f : DexFetch) : ℚ :=
  match f with
  | .exn => 0
  | .resp st body =>
    if st = 200 then
      match body with
      | none => 0
      | some pairs =>
        match bestLoop chain pairs none with
        | some bp => bp.priceUsd
        | none => 0
    else 0

/-! ## Notifier (`send_discord_notification`) -/

/-- The content of one Discord embed, to the extent the claims observe it. -/
structure Notification where
  network : String
  value_display : ℚ
  hash : String
deriving Repr, DecidableEq

/-- `send_discord_notification` from `app.py`.  `webhook` models whether
`DISCORD_WEBHOOK` is configured; `delivery` models whether the `requests.post`
inside the `try` succeeds (its failure is swallowed, so the result cannot
depend on it).  The embed is built *outside* the `try`, in source order:
`float(tx_data['value'])` raises `ValueError` on an unparsable value
(app.py line 140); slicing a NULL `from_address`/`to_address` raises
`TypeError` (lines 146-147); `utcfromtimestamp` on a NULL timestamp raises
`TypeError` (line 151).  Rendering a *non-null* timestamp and the remaining
string formatting are total for the values this pipeline produces and are
modelled as such (no claim probes an out-of-range timestamp). -/
def send_discord_notification (webhook delivery : Bool) (tx : TxRecord) :
    Except PyErr (Option Notification) :=
  if webhook = false then .ok none
  else
    match pyFloat tx.value with
    | none => .error .valueError
    | some v =>
      let value_eth := if tx.network = "base" then v / (10 : ℚ) ^ 18 else v / (10 : ℚ) ^ 9
      match tx.from_address with
      | none => .error .typeError
      | some _ =>
        match tx.to_address with
        | none => .error .typeError
        | some _ =>
          match tx.timestamp with
          | none => .error .typeError
          | some _ =>
            .ok (some { network := tx.network, value_display := value_eth, hash := tx.hash })

/-! ## Base chain fetcher (`fetch_base_transactions`) -/

/-- One raw Base transfer as returned by `alchemy_getAssetTransfers`.
`value` carries the string `str()` of the raw JSON value (a JSON `null`
becomes "None"); `metadata = some none` models a `metadata` object without a
`blockTimestamp` key; `metadata = some (some t)` carries the unix-seconds
denotation of the ISO-8601 timestamp string.  `fromAddr`/`toAddr` are
three-state, matching `dict.get(key, "")`: `none` = key absent (defaults to
""), `some none` = key present with JSON null (`None`, stored as NULL),
`some (some a)` = an address string. -/
structure RawBaseTx where
  hash : Option String := none
  fromAddr : Option (Option String) := none
  toAddr : Option (Option String) := none
  value : Option String := none
  asset : Option String := none
  rawContractAddress : Option String := none
  metadata : Option (Option Int) := none
  blockNum : Option String := none
deriving Repr, DecidableEq

/-- Parsed body of one `alchemy_getAssetTransfers` response. -/
inductive BaseBody where
  | transfers (ts : List RawBaseTx)
  | apiError
  | other
deriving Repr, DecidableEq

/-- The transfers contributed by one parsed 200 response (`error` bodies and
unrecognized shapes contribute nothing). -/
def bodyTransfers : BaseBody → List RawBaseTx
  | .transfers ts => ts
  | .apiError => []
  | .other => []

/-- Contribution of one of the two queries: `[]` on a non-200 status,
raise on a transport exception or a `.json()` failure of a 200 response. -/
def queryContrib : HttpResult BaseBody → Except PyErr (List RawBaseTx)
  | .exn => .error .connError
  | .resp st body =>
    if st = 200 then
      match body with
      | none => .error .jsonError
      | some b => .ok (bodyTransfers b)
    else .ok []

/-- The hash-dedup pass at the end of `fetch_base_transactions`: keep the
first occurrence of each non-empty hash, drop empty-hash transfers. -/
def dedupeGo : List RawBaseTx → List String → List RawBaseTx
  | [], _ => []
  | tx :: rest, seen =>
    let h := tx.hash.getD ""
    if h ≠ "" ∧ h ∉ seen then tx :: dedupeGo rest (h :: seen)
    else dedupeGo rest seen

/-- `fetch_base_transactions` from `app.py`: both queries run inside one
`try`, so a raise in either returns `[]` for the whole call; otherwise the
two contributions are concatenated and deduplicated by hash. -/
def fetch_base_transactions (q1 q2 : HttpResult BaseBody) : List RawBaseTx :=
  match queryContrib q1 with
  | .error _ => []
  | .ok a =>
    match queryContrib q2 with
    | .error _ => []
    | .ok b => dedupeGo (a ++ b) []

/-! ## Solana chain fetcher (`fetch_solana_transactions`) -/

/-- The parsed transaction detail body, after the source's defaulted lookups
(`details.get('meta',{})`, `.get('preBalances',[])`, accounts reduced to
their `pubkey`/plain-string address). -/
structure SolDetails where
  accountKeys : List String := []
  preBalances : List Int := []
  postBalances : List Int := []
deriving Repr, DecidableEq

/-- One entry of the `getSignaturesForAddress` result. `err` is the
truthiness of the upstream error marker. -/
structure SigInfo where
  signature : Option String := none
  blockTime : Option Int := none
  slot : Option Int := none
  err : Bool := false
deriving Repr, DecidableEq

/-- Parsed body of the signature-listing response. -/
inductive SolBody where
  | result (sigs : List SigInfo)
  | noResult
deriving Repr, DecidableEq

/-- Outcome of one `getTransaction` detail request: a body of
`some none` models a missing or null `result` (signature skipped),
`some (some d)` a usable detail. -/
abbrev DetailRes := HttpResult (Option SolDetails)

/-- One element of the list `fetch_solana_transactions` returns.
`blockTime`/`slot` are three-state, matching `dict.get` on the dict the
fetcher builds: `none` = key absent (only then would the `.get` defaults at
the normalizer apply — the fetcher in fact always sets both keys), `some
none` = key present with value `None` (a null upstream blockTime/slot),
`some (some t)` = a real value. -/
structure RawSolTx where
  signature : Option String := none
  blockTime : Option (Option Int) := none
  slot : Option (Option Int) := none
  err : Bool := false
  details : Option SolDetails := none
deriving Repr, DecidableEq

/-- The detail-expansion loop over the (at most 10) most recent signatures.
A transport exception or `.json()` failure raises to the outer `try`; a
non-200 status or an absent `result` silently skips the signature. -/
def solDetailLoop (details : String → DetailRes) :
    List SigInfo → Except PyErr (List RawSolTx)
  | [] => .ok []
  | si :: rest =>
    match si.signature with
    | none => solDetailLoop details rest
    | some sig =>
      match details sig with
      | .exn => .error .connError
      | .resp st body =>
        if st = 200 then
          match body with
          | none => .error .jsonError
          | some none => solDetailLoop details rest
          | some (some d) => do
            let txs ← solDetailLoop details rest
            pure ({ signature := some sig, blockTime := some si.blockTime,
                    slot := some si.slot, err := si.err, details := some d } :: txs)
        else solDetailLoop details rest

/-- `fetch_solana_transactions` from `app.py`: list signatures, expand the 10
most recent, return `[]` on any raise or failure of the listing call. -/
def fetch_solana_transactions (q : HttpResult SolBody) (details : String → DetailRes) :
    List RawSolTx :=
  match q with
  | .exn => []
  | .resp st body =>
    if st = 200 then
      match body with
      | none => []
      | some .noResult => []
      | some (.result sigs) =>
        match solDetailLoop details (sigs.take 10) with
        | .ok l => l
        | .error _ => []
    else []

/-! ## Transaction Store helpers -/

/-- The dedupe gate: `SELECT hash FROM transactions WHERE hash = ?`. -/
def hasHash (s : Store) (h : String) : Bool :=
  s.transactions.any (fun r => r.hash == h)

/-- Number of persisted rows carrying a given hash. -/
def countHash (s : Store) (h : String) : Nat :=
  s.transactions.countP (fun r => r.hash == h)

/-- The first (and, by the dedupe gate, only) persisted row with a hash. -/
def lookupHash (s : Store) (h : String) : Option TxRecord :=
  s.transactions.find? (fun r => r.hash == h)

/-- Result of one `process_*_transaction` call: a normal return (the source's
`True`/`False`, plus the notification it attempted), or a raised exception. -/
inductive ProcResult where
  | ret (inserted : Bool) (notif : Option Notification)
  | raised (e : PyErr)
deriving Repr, DecidableEq

/-! ## Base normalizer (`process_base_transaction`) -/

/-- The USD-value computation of `process_base_transaction` (the inner
`try/except` block): any parse failure or non-positive price leaves the value
at `0`; a generic-feed call may update the price cache. -/
def baseUsd (tx : RawBaseTx) (pnow : ℚ) (pf : PriceFetch) (df : DexFetch)
    (pst : PriceState) : ℚ × PriceState :=
  match (match tx.value with | none => some (0 : ℚ) | some sv => pyFloat sv) with
  | none => (0, pst)
  | some vf =>
    if vf > 0 then
      if tx.asset.getD "ETH" = "ETH" then
        let r := get_token_prices pst pnow pf
        (if r.1.1 > 0 then vf * r.1.1 else 0, r.2.1)
      else if tx.rawContractAddress.getD "" ≠ "" then
        let tp := get_token_price_dexscreener (tx.rawContractAddress.getD "") "base" df
        (if tp > 0 then vf * tp else 0, pst)
      else (0, pst)
    else (0, pst)

/-- The `timestamp` entry of the `tx_data` dict: wall clock when `metadata`
is absent, `KeyError` when `metadata` lacks `blockTimestamp`, else the parsed
block timestamp. -/
def baseTimestampE (tx : RawBaseTx) (now : Int) : Except PyErr Int :=
  match tx.metadata with
  | none => .ok now
  | some none => .error .keyError
  | some (some t) => .ok t

/-- The `block_number` entry: `int(tx['blockNum'], 16)` when present
(raising `ValueError` on a malformed hex string), else `0`. -/
def baseBlockNumE (tx : RawBaseTx) : Except PyErr Int :=
  match tx.blockNum with
  | none => .ok 0
  | some hs =>
    match pyIntHex hs with
    | none => .error .valueError
    | some n => .ok (n : Int)

/-- The `tx_data` record built for a fresh Base transfer. -/
def mkBaseRecord (tx : RawBaseTx) (ts bn : Int) (usd : ℚ) : TxRecord where
  hash := tx.hash.getD ""
  network := "base"
  from_address := tx.fromAddr.getD (some "")
  to_address := tx.toAddr.getD (some "")
  value := tx.value.getD "0"
  timestamp := some ts
  block_number := some bn
  status := "confirmed"
  gas_used := "0"
  token_symbol := tx.asset.getD "ETH"
  token_address := tx.rawContractAddress.getD ""
  usd_value := usd

/-- The not-already-present branch of `process_base_transaction`: compute the
USD value (committing any price-cache refresh), build `tx_data` (which can
raise before the INSERT), insert and commit, then notify (which can raise
after the commit). -/
def processBaseFresh (tx : RawBaseTx) (pnow : ℚ) (pf : PriceFetch) (df : DexFetch)
    (now : Int) (webhook delivery : Bool) (s : Store) (pst : PriceState) :
    Store × PriceState × ProcResult :=
  let u := baseUsd tx pnow pf df pst
  match baseTimestampE tx now, baseBlockNumE tx with
  | .error e, _ => (s, u.2, .raised e)
  | .ok _, .error e => (s, u.2, .raised e)
  | .ok ts, .ok bn =>
    let rec1 := mkBaseRecord tx ts bn u.1
    let s1 : Store := { s with transactions := s.transactions ++ [rec1] }
    match send_discord_notification webhook delivery rec1 with
    | .error e => (s1, u.2, .raised e)
    | .ok n => (s1, u.2, .ret true n)

/-- `process_base_transaction` from `app.py`: dedupe gate, then the fresh
path. -/
def process_base_transaction (tx : RawBaseTx) (pnow : ℚ) (pf : PriceFetch)
    (df : DexFetch) (now : Int) (webhook delivery : Bool) (s : Store)
    (pst : PriceState) : Store × PriceState × ProcResult :=
  if hasHash s (tx.hash.getD "") then (s, pst, .ret false none)
  else processBaseFresh tx pnow pf df now webhook delivery s pst

/-! ## Solana normalizer (`process_solana_transaction`) -/

/-- The wallet-locating loop (`for idx, acc in enumerate(account_keys)` with
`break`); `none` models the `-1` sentinel. -/
def findWalletIdxGo : Nat → List String → Option Nat
  | _, [] => none
  | k, a :: rest => if a = SOLANA_WALLET then some k else findWalletIdxGo (k + 1) rest

/-- Index of the monitored wallet in the account list, if present. -/
def findWalletIdx (accs : List String) : Option Nat :=
  findWalletIdxGo 0 accs

/-- The counterparty scan (`for idx, (pre, post) in enumerate(zip(...))` with
`break`): address of the first account, other than the wallet's index, whose
balance moved as `p` requires; "" when none does. -/
def scanGo (p : Int → Int → Bool) (skip : Nat) (accs : List String) :
    Nat → List (Int × Int) → String
  | _, [] => ""
  | k, (pr, po) :: rest =>
    if p pr po = true ∧ k ≠ skip ∧ k < accs.length then accs.getD k ""
    else scanGo p skip accs (k + 1) rest

/-- The balance-delta computation of `process_solana_transaction`: locate the
wallet, read its pre/post balances (`post_balances[idx]` is unguarded and can
raise `IndexError`), classify direction by the sign of the delta, and scan
for the counterparty.  Returns the SOL value, its `str()` image, and the
`from`/`to` addresses; degraded zeros/empties when the wallet is absent or
the guarded pre-balance bound fails. -/
def solDelta (tx : RawSolTx) : Except PyErr (ℚ × String × String × String) :=
  let d := tx.details.getD {}
  match findWalletIdx d.accountKeys with
  | some i =>
    if i < d.preBalances.length then
      if i < d.postBalances.length then
        let pre := d.preBalances.getD i 0
        let post := d.postBalances.getD i 0
        let bc := post - pre
        let v : ℚ := (bc.natAbs : ℚ) / (10 : ℚ) ^ 9
        if bc > 0 then
          .ok (v, solValueStr bc,
               scanGo (fun pr po => po < pr) i d.accountKeys 0 (d.preBalances.zip d.postBalances),
               SOLANA_WALLET)
        else
          .ok (v, solValueStr bc, SOLANA_WALLET,
               scanGo (fun pr po => po > pr) i d.accountKeys 0 (d.preBalances.zip d.postBalances))
      else .error .indexError
    else .ok (0, "0", "", "")
  | none => .ok (0, "0", "", "")

/-- The USD-value computation for a Solana record (inner `try/except: pass`;
the token symbol is always "SOL"). -/
def solUsd (v : ℚ) (pnow : ℚ) (pf : PriceFetch) (pst : PriceState) : ℚ × PriceState :=
  if v > 0 then
    let r := get_token_prices pst pnow pf
    (if r.1.2 > 0 then v * r.1.2 else 0, r.2.1)
  else (0, pst)

/-- The `tx_data` record built for a fresh Solana transaction.  Note
`from_address or SOLANA_WALLET`: an empty (undetermined) sender is replaced
by the monitored wallet address.  `tx.get('blockTime', int(time.time()))`
(and the slot analogue) default only when the key is absent; the fetcher
always sets it, possibly to `None`, which is then stored as a NULL
timestamp/block height. -/
def mkSolRecord (tx : RawSolTx) (now : Int) (vs fr toA : String) (usd : ℚ) : TxRecord where
  hash := tx.signature.getD ""
  network := "solana"
  from_address := some (if fr = "" then SOLANA_WALLET else fr)
  to_address := some toA
  value := vs
  timestamp := tx.blockTime.getD (some now)
  block_number := tx.slot.getD (some 0)
  status := if tx.err then "failed" else "confirmed"
  gas_used := "0"
  token_symbol := "SOL"
  token_address := ""
  usd_value := usd

/-- The not-already-present branch of `process_solana_transaction`. -/
def processSolFresh (tx : RawSolTx) (pnow : ℚ) (pf : PriceFetch) (now : Int)
    (webhook delivery : Bool) (s : Store) (pst : PriceState) :
    Store × PriceState × ProcResult :=
  match solDelta tx with
  | .error e => (s, pst, .raised e)
  | .ok (v, vs, fr, toA) =>
    let u := solUsd v pnow pf pst
    let rec1 := mkSolRecord tx now vs fr toA u.1
    let s1 : Store := { s with transactions := s.transactions ++ [rec1] }
    match send_discord_notification webhook delivery rec1 with
    | .error e => (s1, u.2, .raised e)
    | .ok n => (s1, u.2, .ret true n)

/-- `process_solana_transaction` from `app.py`: dedupe gate on the signature,
then the fresh path. -/
def process_solana_transaction (tx : RawSolTx) (pnow : ℚ) (pf : PriceFetch)
    (now : Int) (webhook delivery : Bool) (s : Store) (pst : PriceState) :
    Store × PriceState × ProcResult :=
  if hasHash s (tx.signature.getD "") then (s, pst, .ret false none)
  else processSolFresh tx pnow pf now webhook delivery s pst

/-! ## Scheduler (`monitor_transactions`) -/

/-- One fixed upstream snapshot for a scheduler iteration: the responses every
outbound call would observe during that iteration, plus the iteration's
clock readings and configuration. -/
structure Upstream where
  baseQ1 : HttpResult BaseBody
  baseQ2 : HttpResult BaseBody
  solQ : HttpResult SolBody
  solDetails : String → DetailRes
  pf : PriceFetch
  df : DexFetch
  pnow : ℚ
  now : Int
  webhook : Bool
  delivery : Bool

/-- The Base processing loop of one iteration: process each fetched transfer
in order; a raise aborts the remainder of the iteration (keeping committed
state). -/
def runBaseTxs (u : Upstream) : List RawBaseTx → Store × PriceState →
    (Store × PriceState) × Option PyErr
  | [], sp => (sp, none)
  | tx :: rest, sp =>
    let t := process_base_transaction tx u.pnow u.pf u.df u.now u.webhook u.delivery sp.1 sp.2
    match t.2.2 with
    | .raised e => ((t.1, t.2.1), some e)
    | .ret _ _ => runBaseTxs u rest (t.1, t.2.1)

/-- The Solana processing loop of one iteration. -/
def runSolTxs (u : Upstream) : List RawSolTx → Store × PriceState →
    (Store × PriceState) × Option PyErr
  | [], sp => (sp, none)
  | tx :: rest, sp =>
    let t := process_solana_transaction tx u.pnow u.pf u.now u.webhook u.delivery sp.1 sp.2
    match t.2.2 with
    | .raised e => ((t.1, t.2.1), some e)
    | .ret _ _ => runSolTxs u rest (t.1, t.2.1)

/-- Per-network aggregate: `SELECT COUNT(*), SUM(CAST(value AS REAL)) FROM
transactions WHERE network = ?` (an empty SUM is NULL, defaulted to 0 by
`or 0`). -/
def networkTotals (net : String) (s : Store) : Nat × ℚ :=
  let l := s.transactions.filter (fun r => r.network == net)
  (l.length, (l.map (fun r => sqlCastReal r.value)).sum)

/-- The snapshot stage: append one ActivitySnapshot row per network,
unconditionally. -/
def snapshotStage (now : Int) (s : Store) : Store :=
  let b := networkTotals "base" s
  let so := networkTotals "solana" s
  { s with snapshots := s.snapshots ++
      [⟨now, "base", b.1, b.2⟩, ⟨now, "solana", so.1, so.2⟩] }

/-- The body of one scheduler iteration (the inside of the `try`): fetch and
process Base, then Solana, then snapshot.  Returns the resulting state and
the uncaught exception, if one aborted the iteration. -/
def monitorBody (u : Upstream) (sp : Store × PriceState) :
    (Store × PriceState) × Option PyErr :=
  let b := runBaseTxs u (fetch_base_transactions u.baseQ1 u.baseQ2) sp
  match b.2 with
  | some e => (b.1, some e)
  | none =>
    let so := runSolTxs u (fetch_solana_transactions u.solQ u.solDetails) b.1
    match so.2 with
    | some e => (so.1, some e)
    | none => ((snapshotStage u.now so.1.1, so.1.2), none)

/-- One full scheduler iteration: the body's exception, if any, is caught and
logged by the iteration-level `except`; the loop then sleeps and continues. -/
def monitorStep (u : Upstream) (sp : Store × PriceState) : Store × PriceState :=
  (monitorBody u sp).1

/-- A finite trace of the scheduler loop: one iteration per upstream
snapshot. -/
def monitorRun (us : List Upstream) (sp : Store × PriceState) : Store × PriceState :=
  us.foldl (fun sp u => monitorStep u sp) sp

/-! ## Failure-mode predicates (spec-side vocabulary for the theorems) -/

/-- A query outcome that the source absorbs *inside* the per-query status
check: a non-200 status, or a 200 body without a transfers list. -/
def querySoftFails : HttpResult BaseBody → Bool
  | .exn => false
  | .resp st body =>
    if st = 200 then
      match body with
      | some .apiError => true
      | some .other => true
      | _ => false
    else true

/-- A query outcome that raises inside the shared `try`: a transport
exception, or a 200 response whose body fails to parse. -/
def queryRaises : HttpResult BaseBody → Bool
  | .exn => true
  | .resp st body => if st = 200 then body.isNone else false

/-- A failed CoinGecko refetch: exception, unparsable 200 body, or non-200
status. -/
def priceFetchFails : PriceFetch → Bool
  | .exn => true
  | .resp st body => if st = 200 then body.isNone else true

/-- A failed DexScreener call: exception, unparsable 200 body, or non-200
status. -/
def dexFetchFails : DexFetch → Bool
  | .exn => true
  | .resp st body => if st = 200 then body.isNone else true

/-! ## Concrete inputs used by counterexamples and witnesses -/

/-- The spec scenario's raw Base transfer (claim C2). -/
def c2tx : RawBaseTx :=
  { hash := some "0xabc", fromAddr := some (some "W"), toAddr := some (some "X"),
    value := some "1000000000000000000", asset := some "ETH" }

/-- The row the code actually stores for `c2tx` at ETH price 3000. -/
def c2rec : TxRecord :=
  { hash := "0xabc", network := "base", from_address := some "W",
    to_address := some "X", value := "1000000000000000000",
    timestamp := some 777, block_number := some 0,
    status := "confirmed", gas_used := "0", token_symbol := "ETH",
    token_address := "", usd_value := 3000000000000000000000 }

/-- A Solana transaction whose account list does not contain the monitored
wallet (claim C3). -/
def c3tx : RawSolTx :=
  { signature := some "sigX", blockTime := some (some 100), slot := some (some 7),
    details := some { accountKeys := ["A", "B"], preBalances := [5, 5],
                      postBalances := [5, 5] } }

/-- A wallet-absent Solana transaction with a *null* blockTime (the fetcher
always sets the key; Solana reports `blockTime: null` for some
transactions): its stored timestamp is NULL and, with a webhook configured,
the notifier raises TypeError (claims C3 and C7). -/
def c7nullTx : RawSolTx :=
  { signature := some "sigNull", blockTime := some none, slot := some none,
    details := some { accountKeys := ["A"], preBalances := [1], postBalances := [1] } }

/-- One well-formed outgoing Base transfer (claim C4). -/
def c4tx : RawBaseTx := { hash := some "0xaa" }

/-- One Base transfer for a full pipeline iteration (claim C5). -/
def c5tx : RawBaseTx := { hash := some "0x5", value := some "7" }

/-- One upstream snapshot for a full, clean pipeline iteration (claim C5):
one fresh Base transfer, failing price/DexScreener/Solana upstreams. -/
def c5u : Upstream :=
  { baseQ1 := .resp 200 (some (.transfers [c5tx])), baseQ2 := .resp 500 (some .other),
    solQ := .resp 404 none, solDetails := fun _ => .exn, pf := .exn, df := .exn,
    pnow := 0, now := 50, webhook := false, delivery := false }

/-- A Base transfer whose `metadata` object lacks `blockTimestamp`
(claim C6). -/
def c6base : RawBaseTx := { hash := some "0xdead", metadata := some none }

/-- A Solana transaction whose post-balance list is shorter than the
wallet's index in the account list (claim C6). -/
def c6sol : RawSolTx :=
  { signature := some "sig6",
    details := some { accountKeys := [SOLANA_WALLET], preBalances := [5],
                      postBalances := [] } }

/-- A Base transfer whose raw value is a JSON null (`str()` image "None"),
so the stored record's value does not parse as a float (claim C7). -/
def c7tx : RawBaseTx := { hash := some "0xc7", value := some "None" }

/-- A fresh Base transfer for the C1 witness. -/
def w1tx : RawBaseTx := { hash := some "0xw1" }

/-- A fresh Solana transaction for the C1 witness. -/
def w1stx : RawSolTx := { signature := some "sigw1" }

/-- Store after the first C1 submission. -/
def w1s1 : Store := (process_base_transaction w1tx 0 .exn .exn 0 false false store0 pst0).1

/-- Store after both C1 submissions. -/
def w1s2 : Store := (process_solana_transaction w1stx 0 .exn 0 false false w1s1 pst0).1

/-- The row inserted by the first C1 submission. -/
def w1rec : TxRecord := mkBaseRecord w1tx 0 0 0

/-- An upstream snapshot with no usable data (every fetch soft-fails). -/
def uEmpty : Upstream :=
  { baseQ1 := .resp 500 none, baseQ2 := .resp 500 none, solQ := .resp 500 none,
    solDetails := fun _ => .exn, pf := .exn, df := .exn,
    pnow := 0, now := 1, webhook := false, delivery := false }

/-- A Base transfer that makes the Base stage raise mid-iteration
(claim C10's failing first iteration). -/
def c10badtx : RawBaseTx := { hash := some "0xbad", metadata := some none }

/-- First C10 iteration: the Base stage raises `KeyError`. -/
def u10a : Upstream :=
  { baseQ1 := .resp 200 (some (.transfers [c10badtx])), baseQ2 := .resp 500 none,
    solQ := .resp 500 none, solDetails := fun _ => .exn, pf := .exn, df := .exn,
    pnow := 0, now := 60, webhook := false, delivery := false }

/-- The signature listed in the second C10 iteration. -/
def c10sig : SigInfo := { signature := some "s1", blockTime := some 9, slot := some 3 }

/-- Second C10 iteration: Base soft-fails, Solana succeeds with one
transaction. -/
def u10b : Upstream :=
  { baseQ1 := .resp 500 none, baseQ2 := .resp 500 none,
    solQ := .resp 200 (some (.result [c10sig])),
    solDetails := fun _ =>
      .resp 200 (some (some { accountKeys := [], preBalances := [], postBalances := [] })),
    pf := .exn, df := .exn, pnow := 0, now := 70, webhook := false, delivery := false }

/-! ## Helper lemmas: row preservation and store extension -/

/-- An element found in a list is still the one found after appending. -/
theorem find?_append_some {α : Type} (p : α → Bool) {l : List α} (t : List α)
    {r : α} (h : l.find? p = some r) : (l ++ t).find? p = some r := by
  induction l with
  | nil => simp [List.find?] at h
  | cons a l ih =>
    simp only [List.cons_append, List.find?] at h ⊢
    cases hp : p a with
    | true => simpa [hp] using h
    | false =>
      simp only [hp] at h ⊢
      exact ih h

/-- Rows already persisted survive unchanged: their multiplicity and the
first row found under their hash never change. -/
def RowsPreserved (s s' : Store) : Prop :=
  (∀ h, 0 < countHash s h → countHash s' h = countHash s h) ∧
  (∀ h r, lookupHash s h = some r → lookupHash s' h = some r)

theorem rowsPreserved_refl (s : Store) : RowsPreserved s s :=
  ⟨fun _ _ => Eq.refl _, fun _ _ hr => hr⟩

theorem rowsPreserved_trans {s1 s2 s3 : Store} (h12 : RowsPreserved s1 s2)
    (h23 : RowsPreserved s2 s3) : RowsPreserved s1 s3 := by
  constructor
  · intro h hpos
    have e12 := h12.1 h hpos
    have e23 := h23.1 h (by omega)
    omega
  · intro h r hr
    exact h23.2 h r (h12.2 h r hr)

/-- The store only ever grows by appending rows. -/
def StoreExt (s s' : Store) : Prop :=
  ∃ t, s'.transactions = s.transactions ++ t

theorem storeExt_refl (s : Store) : StoreExt s s := ⟨[], by simp⟩

theorem storeExt_trans {s1 s2 s3 : Store} (h12 : StoreExt s1 s2)
    (h23 : StoreExt s2 s3) : StoreExt s1 s3 := by
  obtain ⟨t1, e1⟩ := h12
  obtain ⟨t2, e2⟩ := h23
  exact ⟨t1 ++ t2, by simp [e2, e1]⟩

theorem hasHash_mono {s s' : Store} (hx : StoreExt s s') {h : String}
    (hh : hasHash s h = true) : hasHash s' h = true := by
  obtain ⟨t, e⟩ := hx
  simp only [hasHash, e, List.any_append]
  simp only [hasHash] at hh
  simp [hh]

theorem countHash_eq_zero_of_not_hasHash {s : Store} {h : String}
    (hh : hasHash s h = false) : countHash s h = 0 := by
  simp only [hasHash, List.any_eq_false] at hh
  simp only [countHash, List.countP_eq_zero]
  intro a ha
  exact hh a ha

/-- Appending one row whose hash is not yet present preserves existing rows. -/
theorem insert_rowsPreserved (s : Store) (rec : TxRecord)
    (hfresh : hasHash s rec.hash = false) :
    RowsPreserved s { s with transactions := s.transactions ++ [rec] } := by
  constructor
  · intro h hpos
    have hne : (rec.hash == h) = false := by
      by_cases heq : rec.hash = h
      · subst heq
        have hz : countHash s rec.hash = 0 := countHash_eq_zero_of_not_hasHash hfresh
        omega
      · simp [heq]
    simp [countHash, List.countP_append, List.countP_cons, hne]
  · intro h r hr
    simpa only [lookupHash] using find?_append_some _ [rec] hr

/-! ## Per-process lemmas -/

theorem process_base_skip (tx : RawBaseTx) (pnow : ℚ) (pf : PriceFetch)
    (df : DexFetch) (now : Int) (wh dl : Bool) (s : Store) (pst : PriceState)
    (hh : hasHash s (tx.hash.getD "") = true) :
    process_base_transaction tx pnow pf df now wh dl s pst = (s, pst, .ret false none) := by
  simp [process_base_transaction, hh]

theorem process_sol_skip (tx : RawSolTx) (pnow : ℚ) (pf : PriceFetch)
    (now : Int) (wh dl : Bool) (s : Store) (pst : PriceState)
    (hh : hasHash s (tx.signature.getD "") = true) :
    process_solana_transaction tx pnow pf now wh dl s pst = (s, pst, .ret false none) := by
  simp [process_solana_transaction, hh]

theorem processBaseFresh_shape (tx : RawBaseTx) (pnow : ℚ) (pf : PriceFetch)
    (df : DexFetch) (now : Int) (wh dl : Bool) (s : Store) (pst : PriceState) :
    (processBaseFresh tx pnow pf df now wh dl s pst).1 = s ∨
    ∃ rec, rec.hash = tx.hash.getD "" ∧
      (processBaseFresh tx pnow pf df now wh dl s pst).1 =
        { s with transactions := s.transactions ++ [rec] } := by
  simp only [processBaseFresh]
  cases hts : baseTimestampE tx now with
  | error e => simp
  | ok ts =>
    cases hbn : baseBlockNumE tx with
    | error e => simp
    | ok bn =>
      cases hsd : send_discord_notification wh dl
          (mkBaseRecord tx ts bn (baseUsd tx pnow pf df pst).1) with
      | error e =>
        right
        exact ⟨mkBaseRecord tx ts bn (baseUsd tx pnow pf df pst).1, rfl, by simp [hsd]⟩
      | ok n =>
        right
        exact ⟨mkBaseRecord tx ts bn (baseUsd tx pnow pf df pst).1, rfl, by simp [hsd]⟩

theorem processSolFresh_shape (tx : RawSolTx) (pnow : ℚ) (pf : PriceFetch)
    (now : Int) (wh dl : Bool) (s : Store) (pst : PriceState) :
    (processSolFresh tx pnow pf now wh dl s pst).1 = s ∨
    ∃ rec, rec.hash = tx.signature.getD "" ∧
      (processSolFresh tx pnow pf now wh dl s pst).1 =
        { s with transactions := s.transactions ++ [rec] } := by
  simp only [processSolFresh]
  cases hsd : solDelta tx with
  | error e => simp
  | ok q =>
    obtain ⟨v, vs, fr, toA⟩ := q
    cases hn : send_discord_notification wh dl
        (mkSolRecord tx now vs fr toA (solUsd v pnow pf pst).1) with
    | error e =>
      right
      exact ⟨mkSolRecord tx now vs fr toA (solUsd v pnow pf pst).1, rfl, by simp [hn]⟩
    | ok n =>
      right
      exact ⟨mkSolRecord tx now vs fr toA (solUsd v pnow pf pst).1, rfl, by simp [hn]⟩

theorem process_base_shape (tx : RawBaseTx) (pnow : ℚ) (pf : PriceFetch)
    (df : DexFetch) (now : Int) (wh dl : Bool) (s : Store) (pst : PriceState) :
    (process_base_transaction tx pnow pf df now wh dl s pst).1 = s ∨
    ∃ rec, rec.hash = tx.hash.getD "" ∧ hasHash s rec.hash = false ∧
      (process_base_transaction tx pnow pf df now wh dl s pst).1 =
        { s with transactions := s.transactions ++ [rec] } := by
  by_cases hh : hasHash s (tx.hash.getD "") = true
  · left; simp [process_base_transaction, hh]
  · have hh' : hasHash s (tx.hash.getD "") = false := by
      simpa using hh
    have hsh := processBaseFresh_shape tx pnow pf df now wh dl s pst
    rcases hsh with h1 | ⟨rec, hrec, h2⟩
    · left; simpa [process_base_transaction, hh'] using h1
    · right
      exact ⟨rec, hrec, by rw [hrec]; exact hh',
        by simpa [process_base_transaction, hh'] using h2⟩

theorem process_sol_shape (tx : RawSolTx) (pnow : ℚ) (pf : PriceFetch)
    (now : Int) (wh dl : Bool) (s : Store) (pst : PriceState) :
    (process_solana_transaction tx pnow pf now wh dl s pst).1 = s ∨
    ∃ rec, rec.hash = tx.signature.getD "" ∧ hasHash s rec.hash = false ∧
      (process_solana_transaction tx pnow pf now wh dl s pst).1 =
        { s with transactions := s.transactions ++ [rec] } := by
  by_cases hh : hasHash s (tx.signature.getD "") = true
  · left; simp [process_solana_transaction, hh]
  · have hh' : hasHash s (tx.signature.getD "") = false := by
      simpa using hh
    have hsh := processSolFresh_shape tx pnow pf now wh dl s pst
    rcases hsh with h1 | ⟨rec, hrec, h2⟩
    · left; simpa [process_solana_transaction, hh'] using h1
    · right
      exact ⟨rec, hrec, by rw [hrec]; exact hh',
        by simpa [process_solana_transaction, hh'] using h2⟩

theorem process_base_preserves (tx : RawBaseTx) (pnow : ℚ) (pf : PriceFetch)
    (df : DexFetch) (now : Int) (wh dl : Bool) (s : Store) (pst : PriceState) :
    RowsPreserved s (process_base_transaction tx pnow pf df now wh dl s pst).1 := by
  rcases process_base_shape tx pnow pf df now wh dl s pst with h | ⟨rec, _, hfresh, h⟩
  · rw [h]; exact rowsPreserved_refl s
  · rw [h]; exact insert_rowsPreserved s rec hfresh

theorem process_sol_preserves (tx : RawSolTx) (pnow : ℚ) (pf : PriceFetch)
    (now : Int) (wh dl : Bool) (s : Store) (pst : PriceState) :
    RowsPreserved s (process_solana_transaction tx pnow pf now wh dl s pst).1 := by
  rcases process_sol_shape tx pnow pf now wh dl s pst with h | ⟨rec, _, hfresh, h⟩
  · rw [h]; exact rowsPreserved_refl s
  · rw [h]; exact insert_rowsPreserved s rec hfresh

theorem process_base_ext (tx : RawBaseTx) (pnow : ℚ) (pf : PriceFetch)
    (df : DexFetch) (now : Int) (wh dl : Bool) (s : Store) (pst : PriceState) :
    StoreExt s (process_base_transaction tx pnow pf df now wh dl s pst).1 := by
  rcases process_base_shape tx pnow pf df now wh dl s pst with h | ⟨rec, _, _, h⟩
  · rw [h]; exact storeExt_refl s
  · exact ⟨[rec], by rw [h]⟩

theorem process_sol_ext (tx : RawSolTx) (pnow : ℚ) (pf : PriceFetch)
    (now : Int) (wh dl : Bool) (s : Store) (pst : PriceState) :
    StoreExt s (process_solana_transaction tx pnow pf now wh dl s pst).1 := by
  rcases process_sol_shape tx pnow pf now wh dl s pst with h | ⟨rec, _, _, h⟩
  · rw [h]; exact storeExt_refl s
  · exact ⟨[rec], by rw [h]⟩

theorem process_base_snapshots (tx : RawBaseTx) (pnow : ℚ) (pf : PriceFetch)
    (df : DexFetch) (now : Int) (wh dl : Bool) (s : Store) (pst : PriceState) :
    (process_base_transaction tx pnow pf df now wh dl s pst).1.snapshots = s.snapshots := by
  rcases process_base_shape tx pnow pf df now wh dl s pst with h | ⟨rec, _, _, h⟩ <;> rw [h]

theorem process_sol_snapshots (tx : RawSolTx) (pnow : ℚ) (pf : PriceFetch)
    (now : Int) (wh dl : Bool) (s : Store) (pst : PriceState) :
    (process_solana_transaction tx pnow pf now wh dl s pst).1.snapshots = s.snapshots := by
  rcases process_sol_shape tx pnow pf now wh dl s pst with h | ⟨rec, _, _, h⟩ <;> rw [h]

/-- A normally-returning process call leaves the transaction's hash present
in the resulting store (it was inserted, or was already there). -/
theorem process_base_ret_hasHash (tx : RawBaseTx) (pnow : ℚ) (pf : PriceFetch)
    (df : DexFetch) (now : Int) (wh dl : Bool) (s : Store) (pst : PriceState)
    (b : Bool) (n : Option Notification)
    (h : (process_base_transaction tx pnow pf df now wh dl s pst).2.2 = .ret b n) :
    hasHash (process_base_transaction tx pnow pf df now wh dl s pst).1
      (tx.hash.getD "") = true := by
  by_cases hh : hasHash s (tx.hash.getD "") = true
  · rw [process_base_skip tx pnow pf df now wh dl s pst hh]
    exact hh
  · have hh' : hasHash s (tx.hash.getD "") = false := by simpa using hh
    simp only [process_base_transaction, hh', Bool.false_eq_true, if_false,
      processBaseFresh] at h ⊢
    cases hts : baseTimestampE tx now with
    | error e => simp [hts] at h
    | ok ts =>
      cases hbn : baseBlockNumE tx with
      | error e => simp [hts, hbn] at h
      | ok bn =>
        simp only [hts, hbn] at h ⊢
        cases hsd : send_discord_notification wh dl
            (mkBaseRecord tx ts bn (baseUsd tx pnow pf df pst).1) with
        | error e => simp [hsd] at h
        | ok n2 =>
          simp [hsd, hasHash, List.any_append, mkBaseRecord]

theorem process_sol_ret_hasHash (tx : RawSolTx) (pnow : ℚ) (pf : PriceFetch)
    (now : Int) (wh dl : Bool) (s : Store) (pst : PriceState)
    (b : Bool) (n : Option Notification)
    (h : (process_solana_transaction tx pnow pf now wh dl s pst).2.2 = .ret b n) :
    hasHash (process_solana_transaction tx pnow pf now wh dl s pst).1
      (tx.signature.getD "") = true := by
  by_cases hh : hasHash s (tx.signature.getD "") = true
  · rw [process_sol_skip tx pnow pf now wh dl s pst hh]
    exact hh
  · have hh' : hasHash s (tx.signature.getD "") = false := by simpa using hh
    simp only [process_solana_transaction, hh', Bool.false_eq_true, if_false,
      processSolFresh] at h ⊢
    cases hsd : solDelta tx with
    | error e => simp [hsd] at h
    | ok q =>
      obtain ⟨v, vs, fr, toA⟩ := q
      simp only [hsd] at h ⊢
      cases hn : send_discord_notification wh dl
          (mkSolRecord tx now vs fr toA (solUsd v pnow pf pst).1) with
      | error e => simp [hn] at h
      | ok n2 =>
        simp [hn, hasHash, List.any_append, mkSolRecord]

/-- Inversion: a `False` return comes only from the dedupe gate, with no
store change and no notification. -/
theorem process_base_ret_false (tx : RawBaseTx) (pnow : ℚ) (pf : PriceFetch)
    (df : DexFetch) (now : Int) (wh dl : Bool) (s : Store) (pst : PriceState)
    (n : Option Notification)
    (h : (process_base_transaction tx pnow pf df now wh dl s pst).2.2 = .ret false n) :
    process_base_transaction tx pnow pf df now wh dl s pst = (s, pst, .ret false none) ∧
    hasHash s (tx.hash.getD "") = true := by
  by_cases hh : hasHash s (tx.hash.getD "") = true
  · exact ⟨process_base_skip tx pnow pf df now wh dl s pst hh, hh⟩
  · exfalso
    have hh' : hasHash s (tx.hash.getD "") = false := by simpa using hh
    simp only [process_base_transaction, hh', Bool.false_eq_true, if_false,
      processBaseFresh] at h
    cases hts : baseTimestampE tx now with
    | error e => simp [hts] at h
    | ok ts =>
      cases hbn : baseBlockNumE tx with
      | error e => simp [hts, hbn] at h
      | ok bn =>
        simp only [hts, hbn] at h
        cases hsd : send_discord_notification wh dl
            (mkBaseRecord tx ts bn (baseUsd tx pnow pf df pst).1) with
        | error e => simp [hsd] at h
        | ok n2 => simp [hsd] at h

theorem process_sol_ret_false (tx : RawSolTx) (pnow : ℚ) (pf : PriceFetch)
    (now : Int) (wh dl : Bool) (s : Store) (pst : PriceState)
    (n : Option Notification)
    (h : (process_solana_transaction tx pnow pf now wh dl s pst).2.2 = .ret false n) :
    process_solana_transaction tx pnow pf now wh dl s pst = (s, pst, .ret false none) ∧
    hasHash s (tx.signature.getD "") = true := by
  by_cases hh : hasHash s (tx.signature.getD "") = true
  · exact ⟨process_sol_skip tx pnow pf now wh dl s pst hh, hh⟩
  · exfalso
    have hh' : hasHash s (tx.signature.getD "") = false := by simpa using hh
    simp only [process_solana_transaction, hh', Bool.false_eq_true, if_false,
      processSolFresh] at h
    cases hsd : solDelta tx with
    | error e => simp [hsd] at h
    | ok q =>
      obtain ⟨v, vs, fr, toA⟩ := q
      simp only [hsd] at h
      cases hn : send_discord_notification wh dl
          (mkSolRecord tx now vs fr toA (solUsd v pnow pf pst).1) with
      | error e => simp [hn] at h
      | ok n2 => simp [hn] at h

/-- Inversion: a `True` return means the dedupe gate saw a fresh hash and
exactly one row carrying it was appended. -/
theorem process_base_ret_true (tx : RawBaseTx) (pnow : ℚ) (pf : PriceFetch)
    (df : DexFetch) (now : Int) (wh dl : Bool) (s : Store) (pst : PriceState)
    (n : Option Notification)
    (h : (process_base_transaction tx pnow pf df now wh dl s pst).2.2 = .ret true n) :
    hasHash s (tx.hash.getD "") = false ∧
    ∃ rec, rec.hash = tx.hash.getD "" ∧
      (process_base_transaction tx pnow pf df now wh dl s pst).1 =
        { s with transactions := s.transactions ++ [rec] } := by
  have hh' : hasHash s (tx.hash.getD "") = false := by
    by_cases hh : hasHash s (tx.hash.getD "") = true
    · rw [process_base_skip tx pnow pf df now wh dl s pst hh] at h
      simp at h
    · simpa using hh
  refine ⟨hh', ?_⟩
  rcases process_base_shape tx pnow pf df now wh dl s pst with hs1 | ⟨rec, hrec, _, hs1⟩
  · exfalso
    have hhh := process_base_ret_hasHash tx pnow pf df now wh dl s pst true n h
    rw [hs1, hh'] at hhh
    simp at hhh
  · exact ⟨rec, hrec, hs1⟩

theorem process_sol_ret_true (tx : RawSolTx) (pnow : ℚ) (pf : PriceFetch)
    (now : Int) (wh dl : Bool) (s : Store) (pst : PriceState)
    (n : Option Notification)
    (h : (process_solana_transaction tx pnow pf now wh dl s pst).2.2 = .ret true n) :
    hasHash s (tx.signature.getD "") = false ∧
    ∃ rec, rec.hash = tx.signature.getD "" ∧
      (process_solana_transaction tx pnow pf now wh dl s pst).1 =
        { s with transactions := s.transactions ++ [rec] } := by
  have hh' : hasHash s (tx.signature.getD "") = false := by
    by_cases hh : hasHash s (tx.signature.getD "") = true
    · rw [process_sol_skip tx pnow pf now wh dl s pst hh] at h
      simp at h
    · simpa using hh
  refine ⟨hh', ?_⟩
  rcases process_sol_shape tx pnow pf now wh dl s pst with hs1 | ⟨rec, hrec, _, hs1⟩
  · exfalso
    have hhh := process_sol_ret_hasHash tx pnow pf now wh dl s pst true n h
    rw [hs1, hh'] at hhh
    simp at hhh
  · exact ⟨rec, hrec, hs1⟩

/-! ## Iteration-loop lemmas -/

theorem runBaseTxs_ext (u : Upstream) (txs : List RawBaseTx) (sp : Store × PriceState) :
    StoreExt sp.1 (runBaseTxs u txs sp).1.1 := by
  induction txs generalizing sp with
  | nil => exact storeExt_refl sp.1
  | cons tx rest ih =>
    simp only [runBaseTxs]
    cases hr : (process_base_transaction tx u.pnow u.pf u.df u.now u.webhook u.delivery
        sp.1 sp.2).2.2 with
    | raised e => exact process_base_ext tx u.pnow u.pf u.df u.now u.webhook u.delivery sp.1 sp.2
    | ret b n =>
      exact storeExt_trans
        (process_base_ext tx u.pnow u.pf u.df u.now u.webhook u.delivery sp.1 sp.2) (ih _)

theorem runSolTxs_ext (u : Upstream) (txs : List RawSolTx) (sp : Store × PriceState) :
    StoreExt sp.1 (runSolTxs u txs sp).1.1 := by
  induction txs generalizing sp with
  | nil => exact storeExt_refl sp.1
  | cons tx rest ih =>
    simp only [runSolTxs]
    cases hr : (process_solana_transaction tx u.pnow u.pf u.now u.webhook u.delivery
        sp.1 sp.2).2.2 with
    | raised e => exact process_sol_ext tx u.pnow u.pf u.now u.webhook u.delivery sp.1 sp.2
    | ret b n =>
      exact storeExt_trans
        (process_sol_ext tx u.pnow u.pf u.now u.webhook u.delivery sp.1 sp.2) (ih _)

theorem runBaseTxs_preserves (u : Upstream) (txs : List RawBaseTx) (sp : Store × PriceState) :
    RowsPreserved sp.1 (runBaseTxs u txs sp).1.1 := by
  induction txs generalizing sp with
  | nil => exact rowsPreserved_refl sp.1
  | cons tx rest ih =>
    simp only [runBaseTxs]
    cases hr : (process_base_transaction tx u.pnow u.pf u.df u.now u.webhook u.delivery
        sp.1 sp.2).2.2 with
    | raised e =>
      exact process_base_preserves tx u.pnow u.pf u.df u.now u.webhook u.delivery sp.1 sp.2
    | ret b n =>
      exact rowsPreserved_trans
        (process_base_preserves tx u.pnow u.pf u.df u.now u.webhook u.delivery sp.1 sp.2)
        (ih ((process_base_transaction tx u.pnow u.pf u.df u.now u.webhook u.delivery
          sp.1 sp.2).1,
         (process_base_transaction tx u.pnow u.pf u.df u.now u.webhook u.delivery
          sp.1 sp.2).2.1))

theorem runSolTxs_preserves (u : Upstream) (txs : List RawSolTx) (sp : Store × PriceState) :
    RowsPreserved sp.1 (runSolTxs u txs sp).1.1 := by
  induction txs generalizing sp with
  | nil => exact rowsPreserved_refl sp.1
  | cons tx rest ih =>
    simp only [runSolTxs]
    cases hr : (process_solana_transaction tx u.pnow u.pf u.now u.webhook u.delivery
        sp.1 sp.2).2.2 with
    | raised e =>
      exact process_sol_preserves tx u.pnow u.pf u.now u.webhook u.delivery sp.1 sp.2
    | ret b n =>
      exact rowsPreserved_trans
        (process_sol_preserves tx u.pnow u.pf u.now u.webhook u.delivery sp.1 sp.2)
        (ih ((process_solana_transaction tx u.pnow u.pf u.now u.webhook u.delivery
          sp.1 sp.2).1,
         (process_solana_transaction tx u.pnow u.pf u.now u.webhook u.delivery
          sp.1 sp.2).2.1))

theorem runBaseTxs_snapshots (u : Upstream) (txs : List RawBaseTx) (sp : Store × PriceState) :
    (runBaseTxs u txs sp).1.1.snapshots = sp.1.snapshots := by
  induction txs generalizing sp with
  | nil => rfl
  | cons tx rest ih =>
    simp only [runBaseTxs]
    cases hr : (process_base_transaction tx u.pnow u.pf u.df u.now u.webhook u.delivery
        sp.1 sp.2).2.2 with
    | raised e =>
      exact process_base_snapshots tx u.pnow u.pf u.df u.now u.webhook u.delivery sp.1 sp.2
    | ret b n =>
      rw [ih]
      exact process_base_snapshots tx u.pnow u.pf u.df u.now u.webhook u.delivery sp.1 sp.2

theorem runSolTxs_snapshots (u : Upstream) (txs : List RawSolTx) (sp : Store × PriceState) :
    (runSolTxs u txs sp).1.1.snapshots = sp.1.snapshots := by
  induction txs generalizing sp with
  | nil => rfl
  | cons tx rest ih =>
    simp only [runSolTxs]
    cases hr : (process_solana_transaction tx u.pnow u.pf u.now u.webhook u.delivery
        sp.1 sp.2).2.2 with
    | raised e =>
      exact process_sol_snapshots tx u.pnow u.pf u.now u.webhook u.delivery sp.1 sp.2
    | ret b n =>
      rw [ih]
      exact process_sol_snapshots tx u.pnow u.pf u.now u.webhook u.delivery sp.1 sp.2

/-- The Base stage of one iteration (fetch plus processing loop). -/
def baseStage (u : Upstream) (sp : Store × PriceState) :
    (Store × PriceState) × Option PyErr :=
  runBaseTxs u (fetch_base_transactions u.baseQ1 u.baseQ2) sp

/-- The Solana stage of one iteration. -/
def solStage (u : Upstream) (sp : Store × PriceState) :
    (Store × PriceState) × Option PyErr :=
  runSolTxs u (fetch_solana_transactions u.solQ u.solDetails) sp

theorem monitorBody_eq (u : Upstream) (sp : Store × PriceState) :
    monitorBody u sp =
      match (baseStage u sp).2 with
      | some e => ((baseStage u sp).1, some e)
      | none =>
        match (solStage u (baseStage u sp).1).2 with
        | some e => ((solStage u (baseStage u sp).1).1, some e)
        | none =>
          ((snapshotStage u.now (solStage u (baseStage u sp).1).1.1,
            (solStage u (baseStage u sp).1).1.2), none) := rfl

/-- A clean iteration body decomposes into a clean Base stage, a clean Solana
stage, and the snapshot append. -/
theorem monitorBody_none (u : Upstream) (sp : Store × PriceState)
    (h : (monitorBody u sp).2 = none) :
    (baseStage u sp).2 = none ∧
    (solStage u (baseStage u sp).1).2 = none ∧
    (monitorBody u sp).1 =
      (snapshotStage u.now (solStage u (baseStage u sp).1).1.1,
       (solStage u (baseStage u sp).1).1.2) := by
  rw [monitorBody_eq] at h ⊢
  cases hb : (baseStage u sp).2 with
  | some e => rw [hb] at h; simp at h
  | none =>
    rw [hb] at h
    cases hso : (solStage u (baseStage u sp).1).2 with
    | some e => rw [hso] at h; simp at h
    | none => exact ⟨rfl, rfl, rfl⟩

/-- A clean Base processing loop leaves every processed transfer's hash
present in the resulting store. -/
theorem runBaseTxs_none_mem (u : Upstream) (txs : List RawBaseTx)
    (sp : Store × PriceState) (h : (runBaseTxs u txs sp).2 = none) :
    ∀ tx ∈ txs, hasHash (runBaseTxs u txs sp).1.1 (tx.hash.getD "") = true := by
  induction txs generalizing sp with
  | nil => intro tx htx; simp at htx
  | cons tx rest ih =>
    simp only [runBaseTxs] at h ⊢
    cases hr : (process_base_transaction tx u.pnow u.pf u.df u.now u.webhook u.delivery
        sp.1 sp.2).2.2 with
    | raised e => rw [hr] at h; simp at h
    | ret b n =>
      rw [hr] at h
      have h' : (runBaseTxs u rest
          ((process_base_transaction tx u.pnow u.pf u.df u.now u.webhook u.delivery
            sp.1 sp.2).1,
           (process_base_transaction tx u.pnow u.pf u.df u.now u.webhook u.delivery
            sp.1 sp.2).2.1)).2 = none := h
      intro tx' htx'
      rcases List.mem_cons.mp htx' with heq | hmem
      · rw [heq]
        have h1 := process_base_ret_hasHash tx u.pnow u.pf u.df u.now u.webhook u.delivery
          sp.1 sp.2 b n hr
        have hext := runBaseTxs_ext u rest
          ((process_base_transaction tx u.pnow u.pf u.df u.now u.webhook u.delivery
            sp.1 sp.2).1,
           (process_base_transaction tx u.pnow u.pf u.df u.now u.webhook u.delivery
            sp.1 sp.2).2.1)
        exact hasHash_mono hext h1
      · exact ih _ h' tx' hmem

theorem runSolTxs_none_mem (u : Upstream) (txs : List RawSolTx)
    (sp : Store × PriceState) (h : (runSolTxs u txs sp).2 = none) :
    ∀ tx ∈ txs, hasHash (runSolTxs u txs sp).1.1 (tx.signature.getD "") = true := by
  induction txs generalizing sp with
  | nil => intro tx htx; simp at htx
  | cons tx rest ih =>
    simp only [runSolTxs] at h ⊢
    cases hr : (process_solana_transaction tx u.pnow u.pf u.now u.webhook u.delivery
        sp.1 sp.2).2.2 with
    | raised e => rw [hr] at h; simp at h
    | ret b n =>
      rw [hr] at h
      have h' : (runSolTxs u rest
          ((process_solana_transaction tx u.pnow u.pf u.now u.webhook u.delivery
            sp.1 sp.2).1,
           (process_solana_transaction tx u.pnow u.pf u.now u.webhook u.delivery
            sp.1 sp.2).2.1)).2 = none := h
      intro tx' htx'
      rcases List.mem_cons.mp htx' with heq | hmem
      · rw [heq]
        have h1 := process_sol_ret_hasHash tx u.pnow u.pf u.now u.webhook u.delivery
          sp.1 sp.2 b n hr
        have hext := runSolTxs_ext u rest
          ((process_solana_transaction tx u.pnow u.pf u.now u.webhook u.delivery
            sp.1 sp.2).1,
           (process_solana_transaction tx u.pnow u.pf u.now u.webhook u.delivery
            sp.1 sp.2).2.1)
        exact hasHash_mono hext h1
      · exact ih _ h' tx' hmem

/-- When every hash is already present, the Base loop is a no-op with no
raise. -/
theorem runBaseTxs_skip (u : Upstream) (txs : List RawBaseTx)
    (sp : Store × PriceState)
    (hall : ∀ tx ∈ txs, hasHash sp.1 (tx.hash.getD "") = true) :
    runBaseTxs u txs sp = (sp, none) := by
  induction txs with
  | nil => rfl
  | cons tx rest ih =>
    have hskip := process_base_skip tx u.pnow u.pf u.df u.now u.webhook u.delivery
      sp.1 sp.2 (hall tx (by simp))
    simp only [runBaseTxs, hskip]
    exact ih (fun tx' h' => hall tx' (List.mem_cons_of_mem _ h'))

theorem runSolTxs_skip (u : Upstream) (txs : List RawSolTx)
    (sp : Store × PriceState)
    (hall : ∀ tx ∈ txs, hasHash sp.1 (tx.signature.getD "") = true) :
    runSolTxs u txs sp = (sp, none) := by
  induction txs with
  | nil => rfl
  | cons tx rest ih =>
    have hskip := process_sol_skip tx u.pnow u.pf u.now u.webhook u.delivery
      sp.1 sp.2 (hall tx (by simp))
    simp only [runSolTxs, hskip]
    exact ih (fun tx' h' => hall tx' (List.mem_cons_of_mem _ h'))

theorem snapshotStage_transactions (now : Int) (s : Store) :
    (snapshotStage now s).transactions = s.transactions := rfl

theorem snapshotStage_preserves (now : Int) (s : Store) :
    RowsPreserved s (snapshotStage now s) :=
  ⟨fun _ _ => Eq.refl _, fun _ _ hr => hr⟩

theorem snapshotStage_ext (now : Int) (s : Store) : StoreExt s (snapshotStage now s) :=
  ⟨[], by simp [snapshotStage_transactions]⟩

theorem monitorStep_preserves (u : Upstream) (sp : Store × PriceState) :
    RowsPreserved sp.1 (monitorStep u sp).1 := by
  show RowsPreserved sp.1 (monitorBody u sp).1.1
  rw [monitorBody_eq]
  cases hb : (baseStage u sp).2 with
  | some e => exact runBaseTxs_preserves u _ sp
  | none =>
    cases hso : (solStage u (baseStage u sp).1).2 with
    | some e =>
      exact rowsPreserved_trans (runBaseTxs_preserves u _ sp)
        (runSolTxs_preserves u _ (baseStage u sp).1)
    | none =>
      exact rowsPreserved_trans (runBaseTxs_preserves u _ sp)
        (rowsPreserved_trans (runSolTxs_preserves u _ (baseStage u sp).1)
          (snapshotStage_preserves u.now (solStage u (baseStage u sp).1).1.1))

theorem monitorStep_ext (u : Upstream) (sp : Store × PriceState) :
    StoreExt sp.1 (monitorStep u sp).1 := by
  show StoreExt sp.1 (monitorBody u sp).1.1
  rw [monitorBody_eq]
  cases hb : (baseStage u sp).2 with
  | some e => exact runBaseTxs_ext u _ sp
  | none =>
    cases hso : (solStage u (baseStage u sp).1).2 with
    | some e =>
      exact storeExt_trans (runBaseTxs_ext u _ sp)
        (runSolTxs_ext u _ (baseStage u sp).1)
    | none =>
      exact storeExt_trans (runBaseTxs_ext u _ sp)
        (storeExt_trans (runSolTxs_ext u _ (baseStage u sp).1)
          (snapshotStage_ext u.now (solStage u (baseStage u sp).1).1.1))

theorem monitorRun_preserves (us : List Upstream) (sp : Store × PriceState) :
    RowsPreserved sp.1 (monitorRun us sp).1 := by
  induction us generalizing sp with
  | nil => exact rowsPreserved_refl sp.1
  | cons u rest ih =>
    exact rowsPreserved_trans (monitorStep_preserves u sp) (ih (monitorStep u sp))

/-! ## Further utility lemmas -/

theorem countHash_append (s : Store) (rec : TxRecord) (h : String) :
    countHash { s with transactions := s.transactions ++ [rec] } h
      = countHash s h + (if rec.hash = h then 1 else 0) := by
  simp only [countHash, List.countP_append, List.countP_cons, List.countP_nil]
  by_cases heq : rec.hash = h <;> simp [heq]

theorem hasHash_of_countHash_pos {s : Store} {h : String}
    (hc : 0 < countHash s h) : hasHash s h = true := by
  by_cases hh : hasHash s h = true
  · exact hh
  · have hz := countHash_eq_zero_of_not_hasHash (s := s) (h := h) (by simpa using hh)
    omega

theorem countHash_pos_of_lookup {s : Store} {h : String} {r : TxRecord}
    (hf : lookupHash s h = some r) : 0 < countHash s h := by
  simp only [lookupHash] at hf
  have hmem := List.mem_of_find?_eq_some hf
  have hp := List.find?_some hf
  simp only [countHash]
  exact List.countP_pos_iff.mpr ⟨r, hmem, hp⟩

theorem findWalletIdxGo_none (k : Nat) (l : List String)
    (h : SOLANA_WALLET ∉ l) : findWalletIdxGo k l = none := by
  induction l generalizing k with
  | nil => rfl
  | cons a rest ih =>
    have ha : ¬(a = SOLANA_WALLET) := fun he => h (he ▸ List.mem_cons_self a rest)
    simp only [findWalletIdxGo, if_neg ha]
    exact ih (k + 1) (fun hm => h (List.mem_cons_of_mem a hm))

theorem findWalletIdx_none (l : List String) (h : SOLANA_WALLET ∉ l) :
    findWalletIdx l = none :=
  findWalletIdxGo_none 0 l h

theorem bestLoop_keeps (chain : String) (pairs : List DexPair) (p : DexPair)
    (h : ∀ q ∈ pairs, chainMatches chain q = true →
      q = p ∨ q.liquidityUsd < p.liquidityUsd) :
    bestLoop chain pairs (some p) = some p := by
  induction pairs with
  | nil => rfl
  | cons q rest ih =>
    by_cases hcm : chainMatches chain q = true
    · rcases h q (List.mem_cons_self q rest) hcm with heq | hlt
      · subst heq
        simp only [bestLoop, hcm, if_pos, lt_irrefl, gt_iff_lt, if_neg (lt_irrefl _)]
        exact ih (fun q' hq' hcm' => h q' (List.mem_cons_of_mem _ hq') hcm')
      · have hnlt : ¬(q.liquidityUsd > p.liquidityUsd) := not_lt.mpr hlt.le
        simp only [bestLoop, hcm, if_pos, gt_iff_lt, if_neg hnlt]
        exact ih (fun q' hq' hcm' => h q' (List.mem_cons_of_mem _ hq') hcm')
    · have hcm' : chainMatches chain q = false := by simpa using hcm
      simp only [bestLoop, hcm', Bool.false_eq_true, if_false]
      exact ih (fun q' hq' hcm2 => h q' (List.mem_cons_of_mem _ hq') hcm2)

theorem bestLoop_no_match (chain : String) (pairs : List DexPair)
    (acc : Option DexPair)
    (h : ∀ q ∈ pairs, chainMatches chain q = false) :
    bestLoop chain pairs acc = acc := by
  induction pairs generalizing acc with
  | nil => rfl
  | cons q rest ih =>
    have hq := h q (List.mem_cons_self q rest)
    simp only [bestLoop, hq, Bool.false_eq_true, if_false]
    exact ih acc (fun q' hq' => h q' (List.mem_cons_of_mem _ hq'))

theorem bestLoop_finds (chain : String) (pairs : List DexPair) (p : DexPair)
    (acc : Option DexPair) (hmem : p ∈ pairs)
    (hm : chainMatches chain p = true)
    (hbest : ∀ q ∈ pairs, chainMatches chain q = true →
      q = p ∨ q.liquidityUsd < p.liquidityUsd)
    (hacc : acc = none ∨ ∃ b, acc = some b ∧ b.liquidityUsd < p.liquidityUsd) :
    bestLoop chain pairs acc = some p := by
  induction pairs generalizing acc with
  | nil => simp at hmem
  | cons q rest ih =>
    by_cases hcm : chainMatches chain q = true
    · rcases hbest q (List.mem_cons_self q rest) hcm with heq | hlt
      · subst heq
        rcases hacc with hn | ⟨b, hb, hblt⟩
        · subst hn
          simp only [bestLoop, hcm, if_pos]
          exact bestLoop_keeps chain rest q
            (fun q' hq' hcm' => hbest q' (List.mem_cons_of_mem _ hq') hcm')
        · subst hb
          simp only [bestLoop, hcm, if_pos, gt_iff_lt, if_pos hblt]
          exact bestLoop_keeps chain rest q
            (fun q' hq' hcm' => hbest q' (List.mem_cons_of_mem _ hq') hcm')
      · have hqp : q ≠ p := by
          intro he
          rw [he] at hlt
          exact absurd hlt (lt_irrefl _)
        have hpmem : p ∈ rest := by
          rcases List.mem_cons.mp hmem with he | hr
          · exact absurd he.symm hqp
          · exact hr
        rcases hacc with hn | ⟨b, hb, hblt⟩
        · subst hn
          simp only [bestLoop, hcm, if_pos]
          exact ih _ hpmem (fun q' hq' hcm' => hbest q' (List.mem_cons_of_mem _ hq') hcm')
            (Or.inr ⟨q, rfl, hlt⟩)
        · subst hb
          by_cases hq : q.liquidityUsd > b.liquidityUsd
          · simp only [bestLoop, hcm, if_pos, gt_iff_lt, if_pos hq]
            exact ih _ hpmem (fun q' hq' hcm' => hbest q' (List.mem_cons_of_mem _ hq') hcm')
              (Or.inr ⟨q, rfl, hlt⟩)
          · simp only [bestLoop, hcm, if_pos, gt_iff_lt, if_neg hq]
            exact ih _ hpmem (fun q' hq' hcm' => hbest q' (List.mem_cons_of_mem _ hq') hcm')
              (Or.inr ⟨b, rfl, hblt⟩)
    · have hcm' : chainMatches chain q = false := by simpa using hcm
      have hqp : q ≠ p := by
        intro he
        rw [he] at hcm'
        rw [hcm'] at hm
        simp at hm
      have hpmem : p ∈ rest := by
        rcases List.mem_cons.mp hmem with he | hr
        · exact absurd he.symm hqp
        · exact hr
      simp only [bestLoop, hcm', Bool.false_eq_true, if_false]
      exact ih _ hpmem (fun q' hq' hcm2 => hbest q' (List.mem_cons_of_mem _ hq') hcm2) hacc

theorem snapshotStage_snapshots_length (now : Int) (s : Store) :
    (snapshotStage now s).snapshots.length = s.snapshots.length + 2 := by
  simp [snapshotStage]

/-- A no-op iteration body: when both processing loops skip everything, the
iteration only appends its two snapshot rows. -/
theorem monitorBody_skip (u : Upstream) (sp : Store × PriceState)
    (hb : baseStage u sp = (sp, none)) (hs : solStage u sp = (sp, none)) :
    monitorBody u sp = ((snapshotStage u.now sp.1, sp.2), none) := by
  rw [monitorBody_eq]
  simp only [hb, hs]

theorem queryContrib_soft (q : HttpResult BaseBody) (h : querySoftFails q = true) :
    queryContrib q = .ok [] := by
  cases q with
  | exn => simp [querySoftFails] at h
  | resp st body =>
    by_cases hst : st = 200
    · subst hst
      cases body with
      | none => simp [querySoftFails] at h
      | some b =>
        cases b with
        | transfers ts => simp [querySoftFails] at h
        | apiError => rfl
        | other => rfl
    · simp [queryContrib, hst]

theorem queryContrib_raises (q : HttpResult BaseBody) (h : queryRaises q = true) :
    ∃ e, queryContrib q = .error e := by
  cases q with
  | exn => exact ⟨.connError, rfl⟩
  | resp st body =>
    by_cases hst : st = 200
    · subst hst
      cases body with
      | none => exact ⟨.jsonError, rfl⟩
      | some b => simp [queryRaises] at h
    · simp [queryRaises, hst] at h

/-! ## Claim theorems -/

/-- C2 counterexample: for the spec scenario (raw value
"1000000000000000000", asset ETH, generic-feed ETH price 3000) the stored
record's usdValue is 3×10²¹ (Python renders it "3e+21"), not 3000 (the
claim's "3000.0"): the code multiplies the raw value by the price without
any wei→ETH conversion. -/
theorem c2_usd_counterexample :
    ((process_base_transaction c2tx 400 (.resp 200 (some (3000, 0))) .exn 777
        false false store0 pst0).1.transactions.map (fun r => r.usd_value))
      = [(3000000000000000000000 : ℚ)] ∧
    (3000000000000000000000 : ℚ) ≠ (3000 : ℚ) := by
  exact ⟨rfl, by norm_num⟩

/-- C2 (amended): processing the spec scenario's transfer stores exactly one
record with value "1000000000000000000", tokenSymbol "ETH", and a usdValue of
3×10²¹ = raw value × price (not "3000.0"); the price cache is updated and the
call returns True. -/
theorem c2_usd_amended :
    process_base_transaction c2tx 400 (.resp 200 (some (3000, 0))) .exn 777
        false false store0 pst0
      = ({ store0 with transactions := [c2rec] }, ⟨some (3000, 0), 400⟩, .ret true none) ∧
    c2rec.value = "1000000000000000000" ∧
    c2rec.token_symbol = "ETH" ∧
    c2rec.usd_value = 3000000000000000000000 := by
  exact ⟨rfl, rfl, rfl, rfl⟩

/-- C6: the claim's own examples abort the record with an exception instead
of degrading — a Base transfer whose metadata lacks blockTimestamp raises
KeyError before the INSERT, and a Solana transaction whose post-balance list
is shorter than the wallet's account index raises IndexError; both leave the
store unchanged and propagate to the scheduler's iteration boundary. -/
theorem c6_degrade_code_bug :
    process_base_transaction c6base 0 .exn .exn 0 false false store0 pst0
      = (store0, pst0, .raised .keyError) ∧
    process_solana_transaction c6sol 0 .exn 0 false false store0 pst0
      = (store0, pst0, .raised .indexError) := by
  exact ⟨rfl, rfl⟩

/-- C7 counterexample: the notifier builds the embed outside its `try`; a
record whose value is "None" (the str() image of a null upstream value)
raises ValueError, and a record with a NULL timestamp (a Solana transaction
whose blockTime is null) raises TypeError at `utcfromtimestamp` — both
exceptions propagate out of `process_*_transaction` after the row was
committed. -/
theorem c7_notifier_counterexample :
    send_discord_notification true true (mkBaseRecord c7tx 0 0 0) = .error .valueError ∧
    process_base_transaction c7tx 0 .exn .exn 0 true true store0 pst0
      = ({ store0 with transactions := [mkBaseRecord c7tx 0 0 0] }, pst0,
         .raised .valueError) ∧
    send_discord_notification true true (mkSolRecord c7nullTx 0 "0" "" "" 0)
      = .error .typeError ∧
    process_solana_transaction c7nullTx 0 .exn 0 true true store0 pst0
      = ({ store0 with transactions := [mkSolRecord c7nullTx 0 "0" "" "" 0] }, pst0,
         .raised .typeError) := by
  exact ⟨rfl, rfl, rfl, rfl⟩

/-- C7 (amended): the notifier's delivery is fire-and-forget — the result
never depends on the delivery outcome, and it returns immediately when no
webhook is configured — and it returns normally for every record whose value
parses as a float and whose from/to addresses and timestamp are non-NULL;
but the embed construction runs outside the `try`, so an unparsable value
raises ValueError and a NULL address or NULL timestamp (both producible by
the pipeline) raises TypeError back into the ingestion pipeline. -/
theorem c7_notifier_amended (wh dl dl2 : Bool) (tx : TxRecord) (v : ℚ)
    (fa ta : String) (ts : Int)
    (hv : pyFloat tx.value = some v)
    (hfa : tx.from_address = some fa)
    (hta : tx.to_address = some ta)
    (hts : tx.timestamp = some ts) :
    send_discord_notification wh dl tx =
      .ok (if wh then
            some ⟨tx.network,
                  (if tx.network = "base" then v / (10 : ℚ) ^ 18 else v / (10 : ℚ) ^ 9),
                  tx.hash⟩
           else none) ∧
    send_discord_notification wh dl tx = send_discord_notification wh dl2 tx ∧
    (wh = false → send_discord_notification wh dl tx = .ok none) := by
  cases wh with
  | false => exact ⟨rfl, rfl, fun _ => rfl⟩
  | true =>
    refine ⟨?_, rfl, fun hf => by simp at hf⟩
    simp [send_discord_notification, hv, hfa, hta, hts]

/-- C7 witness: concrete application of the amended notifier theorem to a
record with value "1.5" and non-null fields on the solana network. -/
theorem c7_notifier_witness :
    pyFloat "1.5" = some (3 / 2 : ℚ) ∧
    send_discord_notification true true
        { hash := "hw", network := "solana", from_address := some "a",
          to_address := some "b", value := "1.5", timestamp := some 0,
          block_number := some 0, status := "confirmed", gas_used := "0",
          token_symbol := "SOL", token_address := "", usd_value := 0 }
      = .ok (some ⟨"solana", (3 / 2 : ℚ) / (10 : ℚ) ^ 9, "hw"⟩) := by
  refine ⟨by decide, ?_⟩
  have h := (c7_notifier_amended true true false
    { hash := "hw", network := "solana", from_address := some "a",
      to_address := some "b", value := "1.5", timestamp := some 0,
      block_number := some 0, status := "confirmed", gas_used := "0",
      token_symbol := "SOL", token_address := "", usd_value := 0 }
    (3 / 2 : ℚ) "a" "b" 0 (by decide) rfl rfl rfl).1
  simpa using h

/-- C8: the generic price feed serves the cache without an upstream request
strictly within 300 seconds of a successful fetch; at or after 300 seconds it
issues a refetch; and a failed refetch (exception, unparsable body, or
non-200 status) returns the last cached value — or zeros when no cache
exists — without raising. -/
theorem c8_price_cache (pst : PriceState) (now : ℚ) (f : PriceFetch) (p : ℚ × ℚ) :
    (pst.cache = some p → now - pst.cacheTime < 300 →
      get_token_prices pst now f = (p, pst, false)) ∧
    (300 ≤ now - pst.cacheTime → (get_token_prices pst now f).2.2 = true) ∧
    (priceFetchFails f = true →
      ¬(now - pst.cacheTime < 300 ∧ pst.cache.isSome = true) →
      get_token_prices pst now f = (pst.cache.getD (0, 0), pst, true)) := by
  refine ⟨?_, ?_, ?_⟩
  · intro h1 h2
    simp [get_token_prices, h1, h2]
  · intro h
    have hlt : ¬(now - pst.cacheTime < 300) := not_lt.mpr h
    simp only [get_token_prices, hlt, false_and, if_false]
    cases f with
    | exn => rfl
    | resp st body =>
      by_cases hst : st = 200
      · subst hst
        cases body with
        | none => simp
        | some q => simp
      · simp [hst]
  · intro hf hcond
    simp only [get_token_prices, if_neg hcond]
    cases f with
    | exn => rfl
    | resp st body =>
      by_cases hst : st = 200
      · subst hst
        cases body with
        | none => simp
        | some q => simp [priceFetchFails] at hf
      · simp [hst]

/-- C8 witness: a cache fetched at time 100 is served without an upstream
call at time 200, refetched at time 500, and a failed refetch at time 500
returns the stale cached values. -/
theorem c8_price_cache_witness :
    get_token_prices ⟨some (10, 20), 100⟩ 200 .exn = ((10, 20), ⟨some (10, 20), 100⟩, false) ∧
    (get_token_prices ⟨some (10, 20), 100⟩ 500 (.resp 200 (some (1, 2)))).2.2 = true ∧
    get_token_prices ⟨some (10, 20), 100⟩ 500 .exn = ((10, 20), ⟨some (10, 20), 100⟩, true) := by
  refine ⟨(c8_price_cache ⟨some (10, 20), 100⟩ 200 .exn (10, 20)).1 rfl (by norm_num), ?_, ?_⟩
  · exact (c8_price_cache ⟨some (10, 20), 100⟩ 500 (.resp 200 (some (1, 2))) (10, 20)).2.1
      (by norm_num)
  · have h := (c8_price_cache ⟨some (10, 20), 100⟩ 500 .exn (10, 20)).2.2 rfl (by decide)
    simpa using h

/-- C9: the token-specific feed returns 0 on a failed upstream call, an empty
pair list, or when no pair matches the requested chain case-insensitively;
and when some chain-matching pair strictly dominates every other
chain-matching pair in USD liquidity, it returns that pair's USD price. -/
theorem c9_dexscreener_best_pair (addr chain : String) (f : DexFetch)
    (pairs : List DexPair) (p : DexPair) :
    (dexFetchFails f = true → get_token_price_dexscreener addr chain f = 0) ∧
    (get_token_price_dexscreener addr chain (.resp 200 (some [])) = 0) ∧
    ((∀ q ∈ pairs, chainMatches chain q = false) →
      get_token_price_dexscreener addr chain (.resp 200 (some pairs)) = 0) ∧
    (p ∈ pairs → chainMatches chain p = true →
      (∀ q ∈ pairs, chainMatches chain q = true →
        q = p ∨ q.liquidityUsd < p.liquidityUsd) →
      get_token_price_dexscreener addr chain (.resp 200 (some pairs)) = p.priceUsd) := by
  refine ⟨?_, rfl, ?_, ?_⟩
  · intro hf
    cases f with
    | exn => rfl
    | resp st body =>
      by_cases hst : st = 200
      · subst hst
        cases body with
        | none => rfl
        | some q => simp [dexFetchFails] at hf
      · simp [get_token_price_dexscreener, hst]
  · intro hnone
    simp [get_token_price_dexscreener, bestLoop_no_match chain pairs none hnone]
  · intro hmem hm hbest
    simp [get_token_price_dexscreener,
      bestLoop_finds chain pairs p none hmem hm hbest (Or.inl rfl)]

/-- C9 witness: of two "base" pairs with liquidities 1000 and 5000 the 5000
pair's price (7) is selected, and the zero cases hold at concrete inputs. -/
theorem c9_dexscreener_best_pair_witness :
    get_token_price_dexscreener "t" "base" .exn = 0 ∧
    get_token_price_dexscreener "t" "base" (.resp 200 (some [])) = 0 ∧
    get_token_price_dexscreener "t" "base"
      (.resp 200 (some [⟨"solana", 9, 4⟩])) = 0 ∧
    get_token_price_dexscreener "t" "base"
      (.resp 200 (some [⟨"base", 1000, 5⟩, ⟨"base", 5000, 7⟩])) = 7 := by
  refine ⟨(c9_dexscreener_best_pair "t" "base" .exn [] ⟨"", 0, 0⟩).1 rfl,
          (c9_dexscreener_best_pair "t" "base" .exn [] ⟨"", 0, 0⟩).2.1,
          (c9_dexscreener_best_pair "t" "base" (.resp 200 (some [⟨"solana", 9, 4⟩]))
            [⟨"solana", 9, 4⟩] ⟨"", 0, 0⟩).2.2.1 (by decide), ?_⟩
  exact (c9_dexscreener_best_pair "t" "base"
      (.resp 200 (some [⟨"base", 1000, 5⟩, ⟨"base", 5000, 7⟩]))
      [⟨"base", 1000, 5⟩, ⟨"base", 5000, 7⟩] ⟨"base", 5000, 7⟩).2.2.2
    (by decide) (by decide) (by decide)

/-- C4 counterexample: when the outgoing query succeeds with one transfer and
the incoming query's 200 response fails to parse, the whole fetch returns []
instead of the outgoing transfers — the shared `try` discards the partial
result. -/
theorem c4_partial_failure_counterexample :
    fetch_base_transactions (.resp 200 (some (.transfers [c4tx]))) (.resp 200 none) = [] ∧
    dedupeGo [c4tx] [] = [c4tx] ∧
    ([] : List RawBaseTx) ≠ [c4tx] := by
  exact ⟨rfl, by decide, by decide⟩

/-- C4 (amended): a non-200 status or an error/shape-mismatch payload in one
query contributes an empty list for that query only, preserving the other
query's transfers; but a raised exception or an unparsable 200 body in either
query makes the whole call return [] (it still never raises to the
caller). -/
theorem c4_partial_failure_amended (ts : List RawBaseTx) (q1 q2 : HttpResult BaseBody) :
    (querySoftFails q2 = true →
      fetch_base_transactions (.resp 200 (some (.transfers ts))) q2 = dedupeGo ts []) ∧
    (querySoftFails q1 = true →
      fetch_base_transactions q1 (.resp 200 (some (.transfers ts))) = dedupeGo ts []) ∧
    ((queryRaises q1 = true ∨ queryRaises q2 = true) →
      fetch_base_transactions q1 q2 = []) := by
  have hok : ∀ l, queryContrib (.resp 200 (some (.transfers l))) = .ok l := fun _ => rfl
  refine ⟨?_, ?_, ?_⟩
  · intro h2
    have hc := queryContrib_soft q2 h2
    simp [fetch_base_transactions, hc, hok]
  · intro h1
    have hc := queryContrib_soft q1 h1
    simp [fetch_base_transactions, hc, hok]
  · intro hr
    rcases hr with h1 | h2
    · obtain ⟨e, he⟩ := queryContrib_raises q1 h1
      simp [fetch_base_transactions, he]
    · obtain ⟨e, he⟩ := queryContrib_raises q2 h2
      cases hc1 : queryContrib q1 with
      | error e2 => simp [fetch_base_transactions, hc1]
      | ok a => simp [fetch_base_transactions, hc1, he]

/-- C4 witness: concrete soft failure (HTTP 500) keeps the outgoing transfer;
concrete raises (connection exception, malformed 200 body) yield []. -/
theorem c4_partial_failure_witness :
    fetch_base_transactions (.resp 200 (some (.transfers [c4tx]))) (.resp 500 none)
      = dedupeGo [c4tx] [] ∧
    fetch_base_transactions (.resp 500 none) (.resp 200 (some (.transfers [c4tx])))
      = dedupeGo [c4tx] [] ∧
    fetch_base_transactions .exn (.resp 200 (some (.transfers [c4tx]))) = [] ∧
    fetch_base_transactions (.resp 200 (some (.transfers [c4tx]))) (.resp 200 none) = [] := by
  refine ⟨(c4_partial_failure_amended [c4tx] (.resp 500 none) (.resp 500 none)).1 rfl,
          (c4_partial_failure_amended [c4tx] (.resp 500 none) (.resp 500 none)).2.1 rfl,
          (c4_partial_failure_amended [c4tx] .exn
            (.resp 200 (some (.transfers [c4tx])))).2.2 (Or.inl rfl),
          (c4_partial_failure_amended [c4tx] (.resp 200 (some (.transfers [c4tx])))
            (.resp 200 none)).2.2 (Or.inr rfl)⟩

/-- C3 counterexample: for a Solana transaction whose account list does not
contain the monitored wallet, the stored record's fromAddress is the wallet
address, not the empty string the claim asserts — `from_address or
SOLANA_WALLET` replaces the empty sender. -/
theorem c3_wallet_absent_counterexample :
    ((process_solana_transaction c3tx 0 .exn 5 false false store0 pst0).1.transactions.map
      (fun r => r.from_address)) = [some SOLANA_WALLET] ∧
    (some SOLANA_WALLET : Option String) ≠ some "" := by
  exact ⟨rfl, by decide⟩

/-- C3 (amended): when the wallet is absent from the account list, the
normalizer still commits a degraded record without failing: empty toAddress,
zero value, the raw (possibly NULL) blockTime/slot as timestamp/block
height — but its fromAddress is the monitored wallet address (substituted
for the undetermined empty sender), not empty.  The call returns True with
no webhook, and also with a webhook when blockTime is non-null; with a
webhook and a null blockTime the row is still committed but the notifier
raises TypeError out of the call. -/
theorem c3_wallet_absent_amended (tx : RawSolTx) (pnow : ℚ) (pf : PriceFetch)
    (now : Int) (wh dl : Bool) (s : Store) (pst : PriceState)
    (habs : SOLANA_WALLET ∉ (tx.details.getD {}).accountKeys)
    (hnew : hasHash s (tx.signature.getD "") = false) :
    (process_solana_transaction tx pnow pf now wh dl s pst).1
      = { s with transactions := s.transactions ++ [mkSolRecord tx now "0" "" "" 0] } ∧
    (process_solana_transaction tx pnow pf now wh dl s pst).2.1 = pst ∧
    (wh = false →
      process_solana_transaction tx pnow pf now wh dl s pst
        = ({ s with transactions := s.transactions ++ [mkSolRecord tx now "0" "" "" 0] },
           pst, .ret true none)) ∧
    (∀ t, wh = true → tx.blockTime.getD (some now) = some t →
      process_solana_transaction tx pnow pf now wh dl s pst
        = ({ s with transactions := s.transactions ++ [mkSolRecord tx now "0" "" "" 0] },
           pst, .ret true (some ⟨"solana", 0, tx.signature.getD ""⟩))) ∧
    (wh = true → tx.blockTime = some none →
      process_solana_transaction tx pnow pf now wh dl s pst
        = ({ s with transactions := s.transactions ++ [mkSolRecord tx now "0" "" "" 0] },
           pst, .raised .typeError)) ∧
    (mkSolRecord tx now "0" "" "" 0).from_address = some SOLANA_WALLET ∧
    (mkSolRecord tx now "0" "" "" 0).to_address = some "" ∧
    (mkSolRecord tx now "0" "" "" 0).value = "0" ∧
    (some SOLANA_WALLET : Option String) ≠ some "" := by
  have hidx : findWalletIdx (tx.details.getD {}).accountKeys = none :=
    findWalletIdx_none _ habs
  have hdelta : solDelta tx = .ok (0, "0", "", "") := by
    simp [solDelta, hidx]
  have husd : solUsd 0 pnow pf pst = (0, pst) := by simp [solUsd]
  have hp0 : pyFloat "0" = some 0 := by decide
  have hok : ∀ n : Option Notification,
      send_discord_notification wh dl (mkSolRecord tx now "0" "" "" 0) = .ok n →
      process_solana_transaction tx pnow pf now wh dl s pst
        = ({ s with transactions := s.transactions ++ [mkSolRecord tx now "0" "" "" 0] },
           pst, .ret true n) := by
    intro n hn
    simp only [process_solana_transaction, hnew, Bool.false_eq_true, if_false,
      processSolFresh, hdelta]
    simp [husd, hn]
  have herr : ∀ e : PyErr,
      send_discord_notification wh dl (mkSolRecord tx now "0" "" "" 0) = .error e →
      process_solana_transaction tx pnow pf now wh dl s pst
        = ({ s with transactions := s.transactions ++ [mkSolRecord tx now "0" "" "" 0] },
           pst, .raised e) := by
    intro e hn
    simp only [process_solana_transaction, hnew, Bool.false_eq_true, if_false,
      processSolFresh, hdelta]
    simp [husd, hn]
  refine ⟨?_, ?_, ?_, ?_, ?_, rfl, rfl, rfl, by decide⟩
  · cases hsd : send_discord_notification wh dl (mkSolRecord tx now "0" "" "" 0) with
    | error e => rw [herr e hsd]
    | ok n => rw [hok n hsd]
  · cases hsd : send_discord_notification wh dl (mkSolRecord tx now "0" "" "" 0) with
    | error e => rw [herr e hsd]
    | ok n => rw [hok n hsd]
  · intro hwf
    subst hwf
    exact hok none rfl
  · intro t hwt hbt
    subst hwt
    refine hok (some ⟨"solana", 0, tx.signature.getD ""⟩) ?_
    simp [send_discord_notification, mkSolRecord, hp0, hbt]
  · intro hwt hbt
    subst hwt
    refine herr .typeError ?_
    simp [send_discord_notification, mkSolRecord, hp0, hbt]

/-- C3 witness: the amended theorem applied to concrete wallet-absent
transactions against the empty store — without a webhook (stored, True),
with a webhook and a non-null blockTime (stored, True, notification), and
with a webhook and a null blockTime (stored, then TypeError). -/
theorem c3_wallet_absent_witness :
    SOLANA_WALLET ∉ (c3tx.details.getD {}).accountKeys ∧
    hasHash store0 (c3tx.signature.getD "") = false ∧
    process_solana_transaction c3tx 0 .exn 5 false false store0 pst0 =
      ({ store0 with transactions := [mkSolRecord c3tx 5 "0" "" "" 0] }, pst0,
       .ret true none) ∧
    process_solana_transaction c3tx 0 .exn 5 true false store0 pst0 =
      ({ store0 with transactions := [mkSolRecord c3tx 5 "0" "" "" 0] }, pst0,
       .ret true (some ⟨"solana", 0, "sigX"⟩)) ∧
    process_solana_transaction c7nullTx 0 .exn 5 true false store0 pst0 =
      ({ store0 with transactions := [mkSolRecord c7nullTx 5 "0" "" "" 0] }, pst0,
       .raised .typeError) := by
  refine ⟨by decide, rfl, ?_, ?_, ?_⟩
  · have h := (c3_wallet_absent_amended c3tx 0 .exn 5 false false store0 pst0
      (by decide) rfl).2.2.1 rfl
    simpa using h
  · have h := (c3_wallet_absent_amended c3tx 0 .exn 5 true false store0 pst0
      (by decide) rfl).2.2.2.1 100 rfl rfl
    simpa using h
  · have h := (c3_wallet_absent_amended c7nullTx 0 .exn 5 true false store0 pst0
      (by decide) rfl).2.2.2.2.1 rfl rfl
    simpa using h

theorem baseStage_snapshots (u : Upstream) (sp : Store × PriceState) :
    (baseStage u sp).1.1.snapshots = sp.1.snapshots :=
  runBaseTxs_snapshots u _ sp

theorem solStage_snapshots (u : Upstream) (sp : Store × PriceState) :
    (solStage u sp).1.1.snapshots = sp.1.snapshots :=
  runSolTxs_snapshots u _ sp

/-- C5 counterexample: running the same full iteration twice against one
fixed upstream snapshot leaves the transactions table unchanged but appends
two more snapshot rows, so the Store is not in the same state. -/
theorem c5_pipeline_counterexample :
    monitorStep c5u (monitorStep c5u (store0, pst0)) ≠ monitorStep c5u (store0, pst0) ∧
    (monitorStep c5u (monitorStep c5u (store0, pst0))).1.transactions
      = (monitorStep c5u (store0, pst0)).1.transactions ∧
    (monitorStep c5u (monitorStep c5u (store0, pst0))).1.snapshots.length = 4 ∧
    (monitorStep c5u (store0, pst0)).1.snapshots.length = 2 := by
  exact ⟨by decide, rfl, rfl, rfl⟩

/-- C5 (amended): a clean iteration is idempotent on the transactions table —
running it again against the same upstream snapshot re-inserts nothing — but
the activity_snapshots table is append-only and gains exactly two more rows
per run. -/
theorem c5_pipeline_amended (u : Upstream) (sp : Store × PriceState)
    (h : (monitorBody u sp).2 = none) :
    (monitorStep u (monitorStep u sp)).1.transactions = (monitorStep u sp).1.transactions ∧
    (monitorStep u (monitorStep u sp)).1.snapshots.length
      = (monitorStep u sp).1.snapshots.length + 2 := by
  obtain ⟨hb, hs, hsp⟩ := monitorBody_none u sp h
  have hstep1 : monitorStep u sp =
      (snapshotStage u.now (solStage u (baseStage u sp).1).1.1,
       (solStage u (baseStage u sp).1).1.2) := hsp
  have hmemB := runBaseTxs_none_mem u (fetch_base_transactions u.baseQ1 u.baseQ2) sp hb
  have hmemS := runSolTxs_none_mem u (fetch_solana_transactions u.solQ u.solDetails)
    (baseStage u sp).1 hs
  have hextBS : StoreExt (baseStage u sp).1.1 (solStage u (baseStage u sp).1).1.1 :=
    runSolTxs_ext u _ (baseStage u sp).1
  have hmemB1 : ∀ tx ∈ fetch_base_transactions u.baseQ1 u.baseQ2,
      hasHash (monitorStep u sp).1 (tx.hash.getD "") = true := by
    intro tx htx
    rw [hstep1]
    exact hasHash_mono (snapshotStage_ext _ _) (hasHash_mono hextBS (hmemB tx htx))
  have hmemS1 : ∀ tx ∈ fetch_solana_transactions u.solQ u.solDetails,
      hasHash (monitorStep u sp).1 (tx.signature.getD "") = true := by
    intro tx htx
    rw [hstep1]
    exact hasHash_mono (snapshotStage_ext _ _) (hmemS tx htx)
  have hskipB : baseStage u (monitorStep u sp) = ((monitorStep u sp), none) :=
    runBaseTxs_skip u _ (monitorStep u sp) hmemB1
  have hskipS : solStage u (monitorStep u sp) = ((monitorStep u sp), none) :=
    runSolTxs_skip u _ (monitorStep u sp) hmemS1
  have hstep2 : monitorStep u (monitorStep u sp)
      = (snapshotStage u.now (monitorStep u sp).1, (monitorStep u sp).2) := by
    show (monitorBody u (monitorStep u sp)).1 = _
    rw [monitorBody_skip u (monitorStep u sp) hskipB hskipS]
  constructor
  · rw [hstep2]
    exact snapshotStage_transactions _ _
  · rw [hstep2]
    exact snapshotStage_snapshots_length _ _

/-- C5 witness: the amended idempotence theorem applied to the concrete clean
iteration of the counterexample. -/
theorem c5_pipeline_witness :
    (monitorBody c5u (store0, pst0)).2 = none ∧
    (monitorStep c5u (monitorStep c5u (store0, pst0))).1.transactions
      = (monitorStep c5u (store0, pst0)).1.transactions ∧
    (monitorStep c5u (monitorStep c5u (store0, pst0))).1.snapshots.length
      = (monitorStep c5u (store0, pst0)).1.snapshots.length + 2 := by
  have h := c5_pipeline_amended c5u (store0, pst0) rfl
  exact ⟨rfl, h.1, h.2⟩

/-- C10: an exception inside an iteration body is caught at the iteration
boundary — the loop keeps the partially committed state and proceeds to the
next iteration — and an iteration whose Base stage raised does not prevent
the next iteration from completing its Solana processing and appending its
two snapshot rows.  (The scenario: iteration `u1` raises `e`; iteration `u2`
runs clean.) -/
theorem c10_scheduler_isolation (u1 u2 : Upstream) (sp : Store × PriceState)
    (e : PyErr)
    (h1 : (monitorBody u1 sp).2 = some e)
    (h2 : (monitorBody u2 (monitorStep u1 sp)).2 = none) :
    (∀ rest, monitorRun (u1 :: rest) sp = monitorRun rest (monitorStep u1 sp)) ∧
    monitorStep u1 sp = (monitorBody u1 sp).1 ∧
    (∀ tx ∈ fetch_solana_transactions u2.solQ u2.solDetails,
      hasHash (monitorRun [u1, u2] sp).1 (tx.signature.getD "") = true) ∧
    (monitorRun [u1, u2] sp).1.snapshots.length
      = (monitorStep u1 sp).1.snapshots.length + 2 := by
  obtain ⟨hb2, hs2, hsp2⟩ := monitorBody_none u2 (monitorStep u1 sp) h2
  have hrun : monitorRun [u1, u2] sp = monitorStep u2 (monitorStep u1 sp) := rfl
  have hmemS := runSolTxs_none_mem u2 (fetch_solana_transactions u2.solQ u2.solDetails)
    (baseStage u2 (monitorStep u1 sp)).1 hs2
  have hstep2 : monitorStep u2 (monitorStep u1 sp)
      = (snapshotStage u2.now (solStage u2 (baseStage u2 (monitorStep u1 sp)).1).1.1,
         (solStage u2 (baseStage u2 (monitorStep u1 sp)).1).1.2) := hsp2
  refine ⟨fun rest => rfl, rfl, ?_, ?_⟩
  · intro tx htx
    rw [hrun, hstep2]
    exact hasHash_mono (snapshotStage_ext _ _) (hmemS tx htx)
  · rw [hrun, hstep2]
    simp only [snapshotStage_snapshots_length, solStage_snapshots, baseStage_snapshots]

/-- C10 witness: iteration `u10a` raises KeyError in its Base stage; the loop
continues, and iteration `u10b` still inserts its Solana transaction and
appends two snapshots. -/
theorem c10_scheduler_isolation_witness :
    (monitorBody u10a (store0, pst0)).2 = some PyErr.keyError ∧
    (monitorBody u10b (monitorStep u10a (store0, pst0))).2 = none ∧
    (∀ tx ∈ fetch_solana_transactions u10b.solQ u10b.solDetails,
      hasHash (monitorRun [u10a, u10b] (store0, pst0)).1 (tx.signature.getD "") = true) ∧
    (monitorRun [u10a, u10b] (store0, pst0)).1.snapshots.length
      = (monitorStep u10a (store0, pst0)).1.snapshots.length + 2 := by
  have h := c10_scheduler_isolation u10a u10b (store0, pst0) PyErr.keyError rfl rfl
  exact ⟨rfl, rfl, h.2.2.1, h.2.2.2⟩

/-- C1: a first successful submission persists exactly one row under the
transaction's hash (for both the Base and the Solana process paths); any
later submission of the same hash returns False, leaves the store and the
price cache unchanged, and attempts no notification; and across any further
scheduler iterations the persisted row is never updated — its multiplicity
and its content under lookup are preserved for the lifetime of the
process. -/
theorem c1_idempotent_insert
    (tx : RawBaseTx) (stx : RawSolTx)
    (pnow : ℚ) (pf : PriceFetch) (df : DexFetch) (now : Int) (wh dl : Bool)
    (pnow2 : ℚ) (pf2 : PriceFetch) (df2 : DexFetch) (now2 : Int) (wh2 dl2 : Bool)
    (s s1 s2 : Store) (pst pst1 pst2 pstA pstB : PriceState)
    (nb ns : Option Notification) (us : List Upstream) (hq : String) (r : TxRecord)
    (hb : process_base_transaction tx pnow pf df now wh dl s pst = (s1, pst1, .ret true nb))
    (hsol : process_solana_transaction stx pnow pf now wh dl s1 pst1 = (s2, pst2, .ret true ns))
    (hfind : lookupHash s2 hq = some r) :
    countHash s1 (tx.hash.getD "") = 1 ∧
    countHash s2 (stx.signature.getD "") = 1 ∧
    countHash s2 (tx.hash.getD "") = 1 ∧
    process_base_transaction tx pnow2 pf2 df2 now2 wh2 dl2 s2 pstA
      = (s2, pstA, .ret false none) ∧
    process_solana_transaction stx pnow2 pf2 now2 wh2 dl2 s2 pstB
      = (s2, pstB, .ret false none) ∧
    lookupHash (monitorRun us (s2, pst2)).1 hq = some r ∧
    countHash (monitorRun us (s2, pst2)).1 hq = countHash s2 hq := by
  have hb22 : (process_base_transaction tx pnow pf df now wh dl s pst).2.2 = .ret true nb := by
    rw [hb]
  obtain ⟨hfreshB, recB, hrecB, hsB⟩ :=
    process_base_ret_true tx pnow pf df now wh dl s pst nb hb22
  have hs1 : s1 = { s with transactions := s.transactions ++ [recB] } := by
    have h1' : (process_base_transaction tx pnow pf df now wh dl s pst).1 = s1 := by rw [hb]
    exact h1'.symm.trans hsB
  have hzB := countHash_eq_zero_of_not_hasHash (s := s) (h := tx.hash.getD "") hfreshB
  have hcB : countHash s1 (tx.hash.getD "") = 1 := by
    rw [hs1, countHash_append]
    simp [hrecB, hzB]
  have hsol22 : (process_solana_transaction stx pnow pf now wh dl s1 pst1).2.2
      = .ret true ns := by rw [hsol]
  obtain ⟨hfreshS, recS, hrecS, hsS⟩ :=
    process_sol_ret_true stx pnow pf now wh dl s1 pst1 ns hsol22
  have hs2 : s2 = { s1 with transactions := s1.transactions ++ [recS] } := by
    have h2' : (process_solana_transaction stx pnow pf now wh dl s1 pst1).1 = s2 := by rw [hsol]
    exact h2'.symm.trans hsS
  have hzS := countHash_eq_zero_of_not_hasHash (s := s1) (h := stx.signature.getD "") hfreshS
  have hcS : countHash s2 (stx.signature.getD "") = 1 := by
    rw [hs2, countHash_append]
    simp [hrecS, hzS]
  have hneq : recS.hash ≠ tx.hash.getD "" := by
    intro he
    have hyes : hasHash s1 (tx.hash.getD "") = true :=
      hasHash_of_countHash_pos (by rw [hcB]; norm_num)
    have hno : hasHash s1 recS.hash = false := by rw [hrecS]; exact hfreshS
    rw [he, hyes] at hno
    simp at hno
  have hcB2 : countHash s2 (tx.hash.getD "") = 1 := by
    rw [hs2, countHash_append, if_neg hneq, hcB]
  have hhB2 : hasHash s2 (tx.hash.getD "") = true :=
    hasHash_of_countHash_pos (by rw [hcB2]; norm_num)
  have hhS2 : hasHash s2 (stx.signature.getD "") = true :=
    hasHash_of_countHash_pos (by rw [hcS]; norm_num)
  have hpres := monitorRun_preserves us (s2, pst2)
  exact ⟨hcB, hcS, hcB2,
    process_base_skip tx pnow2 pf2 df2 now2 wh2 dl2 s2 pstA hhB2,
    process_sol_skip stx pnow2 pf2 now2 wh2 dl2 s2 pstB hhS2,
    hpres.2 hq r hfind,
    hpres.1 hq (countHash_pos_of_lookup hfind)⟩

/-- C1 witness: two concrete fresh submissions (one Base, one Solana), their
resubmission against the grown store, and preservation of the Base row across
one further scheduler iteration. -/
theorem c1_idempotent_insert_witness :
    process_base_transaction w1tx 0 .exn .exn 0 false false store0 pst0
      = (w1s1, pst0, .ret true none) ∧
    process_solana_transaction w1stx 0 .exn 0 false false w1s1 pst0
      = (w1s2, pst0, .ret true none) ∧
    lookupHash w1s2 "0xw1" = some w1rec ∧
    countHash w1s1 (w1tx.hash.getD "") = 1 ∧
    countHash w1s2 (w1stx.signature.getD "") = 1 ∧
    countHash w1s2 (w1tx.hash.getD "") = 1 ∧
    process_base_transaction w1tx 5 .exn .exn 9 true true w1s2 pst0
      = (w1s2, pst0, .ret false none) ∧
    process_solana_transaction w1stx 5 .exn 9 true true w1s2 pst0
      = (w1s2, pst0, .ret false none) ∧
    lookupHash (monitorRun [uEmpty] (w1s2, pst0)).1 "0xw1" = some w1rec ∧
    countHash (monitorRun [uEmpty] (w1s2, pst0)).1 "0xw1" = countHash w1s2 "0xw1" := by
  have h := c1_idempotent_insert w1tx w1stx 0 .exn .exn 0 false false 5 .exn .exn 9 true true
    store0 w1s1 w1s2 pst0 pst0 pst0 pst0 pst0 none none [uEmpty] "0xw1" w1rec rfl rfl rfl
  exact ⟨rfl, rfl, rfl, h.1, h.2.1, h.2.2.1, h.2.2.2.1, h.2.2.2.2.1,
    h.2.2.2.2.2.1, h.2.2.2.2.2.2⟩
